import Mathlib

/-!
Verification of the structural-analysis engine of auto-structure-analysis.

The development shallowly embeds the Python sources under
`backend/app/services` (fea_solver.py, materials.py, code_checks.py) and the
data model of `backend/app/models/schemas.py`.  Python floats are modelled as
exact rationals; the transcendental float primitives `math.pi ** 2`,
`x ** y` and `math.sqrt` are threaded as explicit parameters (`pi2`, `powQ`,
`sqrtQ`), since every claim under study is independent of their exact values.
The external PyNite finite-element backend (an out-of-repository dependency
that `solve` delegates to) is abstracted as a `FemBackend` argument producing
the per-member force extractions and per-node reaction/displacement lookups
that fea_solver.py reads from the `FEModel3D` object.
-/

namespace AutoStruct

/-- Safety verdict literal `"PASS" | "WARNING" | "FAIL"` from schemas.py. -/
inductive SafetyStatus where
  | PASS
  | WARNING
  | FAIL
deriving DecidableEq

/-- Support kind literal `"pin" | "roller" | "fixed"` from schemas.py. -/
inductive SupportType where
  | pin
  | roller
  | fixed
deriving DecidableEq

/-- Node record.  schemas.py declares `id`, `x`, `y`; the repository tests
(test_report_generator.py) and report_generator.py additionally use the
displacement components that `solve` attaches, so the intended record carries
`displacement_x`/`displacement_y` (defaulting to zero on input nodes).  The
frozen schemas.py snapshot omits the displacement fields; that omission is
analysed separately via `NodeSchema` below. -/
structure Node where
  id : String
  x : ℚ
  y : ℚ
  displacement_x : ℚ := 0
  displacement_y : ℚ := 0
deriving DecidableEq

/-- Member record from schemas.py. -/
structure Member where
  id : String
  start_node : String
  end_node : String
  material : String := "steel"
deriving DecidableEq

/-- Support record from schemas.py. -/
structure Support where
  node_id : String
  type : SupportType
deriving DecidableEq

/-- Structural model from schemas.py.  The `structure_type` field is read by
fea_solver.py (line 39) and asserted by test_frame_solver.py to default to
`"truss"`; the frozen schemas.py snapshot omits it, so it is restored here
from those uses and from spec section 6 (`structure_kind: "truss"|"frame"`). -/
structure StructuralModel where
  structure_type : String := "truss"
  nodes : List Node
  members : List Member
  supports : List Support
deriving DecidableEq

/-- Point load record from schemas.py. -/
structure Load where
  node_id : String
  fx : ℚ := 0
  fy : ℚ := 0
deriving DecidableEq

/-- Member force record from schemas.py. -/
structure MemberForce where
  member_id : String
  axial : ℚ
  shear : ℚ
  moment : ℚ
  stress : ℚ
  stress_ratio : ℚ
deriving DecidableEq

/-- Reaction record from schemas.py. -/
structure Reaction where
  node_id : String
  rx : ℚ
  ry : ℚ
deriving DecidableEq

/-- Analysis results.  The five leading fields are the ones schemas.py
declares; `nodes_with_displacements` is the nodal displacement list that
fea_solver.py passes on construction and report_generator.py and the
repository tests read back.  The frozen schemas.py snapshot omits that field;
the omission is analysed separately via `AnalysisResultsSchema` below. -/
structure AnalysisResults where
  member_forces : List MemberForce
  reactions : List Reaction
  max_deflection : ℚ
  safety_status : SafetyStatus
  max_stress_ratio : ℚ
  nodes_with_displacements : List Node
deriving DecidableEq

/-- LoadCase.  Modelled from the spec: the class is imported by fea_solver.py
from app.models.schemas but is missing from the frozen schemas.py snapshot;
spec section 3 defines it as a name, a category tag and a list of Loads. -/
structure LoadCase where
  name : String
  type : String
  loads : List Load
deriving DecidableEq

/-- LoadCombination.  Modelled from the spec: the class is imported by
fea_solver.py from app.models.schemas but is missing from the frozen
schemas.py snapshot; spec section 3 defines it as a name and a mapping from
LoadCase name to a scalar factor.  The Python dict is modelled as an
insertion-ordered association list. -/
structure LoadCombination where
  name : String
  factors : List (String × ℚ)
deriving DecidableEq

/-- Python exception kinds relevant to the analysis engine: `ValueError`
(raised by materials.get_material for an unknown name) and the repository
exception `SolverError` from exceptions.py. -/
inductive AppError where
  | valueError (msg : String)
  | solverError (msg : String)
deriving DecidableEq

deriving instance DecidableEq for Except

/-- Python `str(e)` on either exception yields its message. -/
def AppError.message : AppError → String
  | .valueError m => m
  | .solverError m => m

/-- Material record from materials.py. -/
structure Material where
  name : String
  E : ℚ
  fy : ℚ
  density : ℚ
  description : String
deriving DecidableEq

/-- The preset `_MATERIALS` table from materials.py. -/
def MATERIALS : List (String × Material) :=
  [ ("steel", ⟨"steel", 200000, 250, 7850, "Structural Steel (A36)"⟩),
    ("aluminum", ⟨"aluminum", 69000, 270, 2700, "Aluminum Alloy (6061-T6)"⟩),
    ("wood", ⟨"wood", 12000, 40, 550, "Wood (Southern Pine)"⟩) ]

/-- Python `str.lower()`: per-character lower-casing (the character-list
counterpart of `String.toLower`). -/
def pyLower (s : String) : String := String.mk (s.data.map Char.toLower)

/-- `get_material` from materials.py: lower-cases the name, looks it up in the
preset table, and raises `ValueError` for an unknown name. -/
def get_material (name : String) : Except AppError Material :=
  let n := pyLower name
  match MATERIALS.find? (fun p => p.1 = n) with
  | some p => .ok p.2
  | none =>
      .error (.valueError ("Unknown material: " ++ n ++
        ". Available materials: steel, aluminum, wood"))

/-- Per-member and per-node quantities that fea_solver.py extracts from the
solved PyNite `FEModel3D`: `members[id].max_axial()`, `.max_shear("Fy")`,
`.max_moment("Mz")`, `nodes[id].RxnFX/RxnFY["Combo 1"]` and
`nodes[id].DX/DY["Combo 1"]`. -/
structure FemResults where
  maxAxial : String → ℚ
  maxShear : String → ℚ
  maxMoment : String → ℚ
  rxnFX : String → ℚ
  rxnFY : String → ℚ
  dispDX : String → ℚ
  dispDY : String → ℚ

/-- The external PyNite analysis step (fea_solver.py lines 42-125): builds the
finite-element model and runs `fem.analyze`, producing the extraction
functions, or failing with the message of the raised exception. -/
def FemBackend : Type :=
  StructuralModel → List Load → Material → Except String FemResults

/-- Truss cross-section area (mm^2), fea_solver.py line 83. -/
def trussArea : ℚ := 500

/-- Frame cross-section area (mm^2), fea_solver.py line 76. -/
def frameArea : ℚ := 1000

/-- Frame moment of inertia about z (mm^4), fea_solver.py line 78. -/
def frameIz : ℚ := 50000

/-- Assumed section depth (mm), fea_solver.py line 147. -/
def sectionDepth : ℚ := 30

/-- Stress and stress-ratio computation for one member
(fea_solver.py lines 131-168). -/
def memberForceOf (isFrame : Bool) (material : Material) (fem : FemResults)
    (m : Member) : MemberForce :=
  let axial := fem.maxAxial m.id
  let shear := fem.maxShear m.id
  let moment := fem.maxMoment m.id
  let stress :=
    if isFrame then
      let axial_stress := |axial| / frameArea
      let S := frameIz / (sectionDepth / 2)
      let bending_stress := if S > 0 then |moment| / S else 0
      axial_stress + bending_stress
    else
      |axial| / trussArea
  let stress_ratio := stress / material.fy
  { member_id := m.id, axial := axial, shear := shear, moment := moment,
    stress := stress, stress_ratio := stress_ratio }

/-- Safety verdict from the maximum stress ratio
(fea_solver.py lines 202-208 and 334-340). -/
def safetyStatusOf (max_stress_ratio : ℚ) : SafetyStatus :=
  if max_stress_ratio ≥ 1 then .FAIL
  else if max_stress_ratio ≥ 0.8 then .WARNING
  else .PASS

/-- `solve` from fea_solver.py.  The whole body runs inside a
`try ... except Exception` that re-raises any failure as
`SolverError("FEA analysis failed: " + str(e))`; in particular the
`ValueError` of `get_material` (called first, line 36) is wrapped too.
`sqrtQ` stands for the float `math.sqrt` used for deflection magnitudes. -/
def solve (backend : FemBackend) (sqrtQ : ℚ → ℚ) (model : StructuralModel)
    (loads : List Load) (material_name : String) :
    Except AppError AnalysisResults :=
  match get_material material_name with
  | .error e => .error (.solverError ("FEA analysis failed: " ++ e.message))
  | .ok material =>
    let isFrame := model.structure_type = "frame"
    match backend model loads material with
    | .error msg => .error (.solverError ("FEA analysis failed: " ++ msg))
    | .ok fem =>
      let member_forces := model.members.map (memberForceOf isFrame material fem)
      let max_stress_ratio :=
        member_forces.foldl (fun acc mf => max acc mf.stress_ratio) 0
      let reactions := model.supports.map (fun s =>
        { node_id := s.node_id, rx := fem.rxnFX s.node_id,
          ry := fem.rxnFY s.node_id : Reaction })
      let max_deflection := model.nodes.foldl (fun acc n =>
        max acc (sqrtQ ((fem.dispDX n.id) ^ 2 + (fem.dispDY n.id) ^ 2))) 0
      let nodes_with_displacements := model.nodes.map (fun n =>
        { id := n.id, x := n.x, y := n.y,
          displacement_x := fem.dispDX n.id,
          displacement_y := fem.dispDY n.id : Node })
      .ok { member_forces := member_forces,
            reactions := reactions,
            max_deflection := max_deflection,
            safety_status := safetyStatusOf max_stress_ratio,
            max_stress_ratio := max_stress_ratio,
            nodes_with_displacements := nodes_with_displacements }

/-- Single-quote character, used in the error message of
solve_with_combinations. -/
def squote : String := String.singleton (Char.ofNat 39)

/-- The message `Load case ... not found` (with the missing name in single
quotes) raised by solve_with_combinations for an undefined load case
reference. -/
def loadCaseNotFoundMsg (case_name : String) : String :=
  "Load case " ++ squote ++ case_name ++ squote ++ " not found"

/-- The `load_case_map = @{lc.name: lc for lc in load_cases@}` dict
comprehension: a later case with the same name overrides an earlier one. -/
def lookupCase (load_cases : List LoadCase) (name : String) : Option LoadCase :=
  load_cases.reverse.find? (fun lc => lc.name = name)

/-- One entry of the `load_map` dict of solve_with_combinations:
node id with accumulated (fx, fy). -/
abbrev LoadMap : Type := List (String × ℚ × ℚ)

/-- The body of the inner `for load in case.loads` loop
(fea_solver.py lines 259-269): insert a zero entry for an unseen node id,
then add the factored components in place (dict insertion order kept). -/
def addFactoredLoad (lm : LoadMap) (nid : String) (dfx dfy : ℚ) : LoadMap :=
  if lm.any (fun p => p.1 = nid) then
    lm.map (fun p => if p.1 = nid then (p.1, p.2.1 + dfx, p.2.2 + dfy) else p)
  else
    lm ++ [(nid, dfx, dfy)]

/-- Accumulate one factored load case into the load map. -/
def applyCase (lm : LoadMap) (case : LoadCase) (factor : ℚ) : LoadMap :=
  case.loads.foldl
    (fun acc l => addFactoredLoad acc l.node_id (l.fx * factor) (l.fy * factor))
    lm

/-- The `for case_name, factor in combo.factors.items()` loop
(fea_solver.py lines 254-269): raise `SolverError` at the first factor whose
case name is not in the load-case map, otherwise accumulate its factored
loads. -/
def buildComboLoads (load_cases : List LoadCase) :
    List (String × ℚ) → LoadMap → Except AppError LoadMap
  | [], lm => .ok lm
  | (case_name, factor) :: rest, lm =>
    match lookupCase load_cases case_name with
    | some case => buildComboLoads load_cases rest (applyCase lm case factor)
    | none => .error (.solverError (loadCaseNotFoundMsg case_name))

/-- `combined_loads = list(load_map.values())`. -/
def loadMapValues (lm : LoadMap) : List Load :=
  lm.map (fun p => { node_id := p.1, fx := p.2.1, fy := p.2.2 })

/-- The `for combo in combinations` loop of solve_with_combinations:
build the combined loads of each combination, solve it, and extend the
insertion-ordered results dict; any exception aborts the whole batch. -/
def solveCombosGo
    (solveFn : StructuralModel → List Load → String → Except AppError AnalysisResults)
    (model : StructuralModel) (load_cases : List LoadCase)
    (material_name : String) :
    List LoadCombination → List (String × AnalysisResults) →
    Except AppError (List (String × AnalysisResults))
  | [], acc => .ok acc
  | combo :: rest, acc =>
    match buildComboLoads load_cases combo.factors [] with
    | .error e => .error e
    | .ok lm =>
      match solveFn model (loadMapValues lm) material_name with
      | .error e => .error e
      | .ok res => solveCombosGo solveFn model load_cases material_name rest
          (acc ++ [(combo.name, res)])

/-- `solve_with_combinations` from fea_solver.py, parameterised by the
`solve` function it re-invokes per combination.  The returned dict is an
insertion-ordered association list. -/
def solve_with_combinations
    (solveFn : StructuralModel → List Load → String → Except AppError AnalysisResults)
    (model : StructuralModel) (load_cases : List LoadCase)
    (combinations : List LoadCombination) (material_name : String) :
    Except AppError (List (String × AnalysisResults)) :=
  solveCombosGo solveFn model load_cases material_name combinations []

/-- The per-member accumulation loop of get_envelope_results
(fea_solver.py lines 309-317) for one of the five tracked quantities:
starting from 0.0, take the running maximum of `f mf` over every member
force whose id matches, across all combinations in order. -/
def envMax (rs : List (String × AnalysisResults)) (member_id : String)
    (f : MemberForce → ℚ) : ℚ :=
  rs.foldl
    (fun acc p => p.2.member_forces.foldl
      (fun a mf => if mf.member_id = member_id then max a (f mf) else a) acc)
    0

/-- The envelope MemberForce for one member id
(fea_solver.py lines 302-326): maximum absolute axial, shear, moment and
stress, and maximum (signed) stress ratio. -/
def envelopeMemberForce (rs : List (String × AnalysisResults))
    (member_id : String) : MemberForce :=
  { member_id := member_id,
    axial := envMax rs member_id (fun mf => |mf.axial|),
    shear := envMax rs member_id (fun mf => |mf.shear|),
    moment := envMax rs member_id (fun mf => |mf.moment|),
    stress := envMax rs member_id (fun mf => |mf.stress|),
    stress_ratio := envMax rs member_id (fun mf => mf.stress_ratio) }

/-- Python `max(generator)` over a non-empty sequence:
fold of `max` from the first element. -/
def listMaxFrom (x : ℚ) (l : List ℚ) : ℚ := l.foldl max x

/-- Python `max(values, key=...)` keeps the first of several maxima. -/
def worstCaseBy : AnalysisResults → List (String × AnalysisResults) →
    AnalysisResults
  | best, [] => best
  | best, p :: rest =>
      worstCaseBy (if p.2.max_stress_ratio > best.max_stress_ratio
                   then p.2 else best) rest

/-- `get_envelope_results` from fea_solver.py: `ValueError` on an empty
results dict, otherwise the per-member envelope, the maximum deflection and
stress ratio across combinations, the threshold safety status, and the
reactions and displacement list of the worst (highest stress ratio)
combination. -/
def get_envelope_results (combination_results : List (String × AnalysisResults)) :
    Except AppError AnalysisResults :=
  match combination_results with
  | [] => .error (.valueError "No combination results provided")
  | (c0, first) :: rest =>
    let rs := (c0, first) :: rest
    let member_ids := first.member_forces.map MemberForce.member_id
    let envelope_member_forces := member_ids.map (envelopeMemberForce rs)
    let max_deflection :=
      listMaxFrom first.max_deflection (rest.map (fun p => p.2.max_deflection))
    let overall_max_stress_ratio :=
      listMaxFrom first.max_stress_ratio (rest.map (fun p => p.2.max_stress_ratio))
    let worst_case := worstCaseBy first rest
    .ok { member_forces := envelope_member_forces,
          reactions := worst_case.reactions,
          max_deflection := max_deflection,
          safety_status := safetyStatusOf overall_max_stress_ratio,
          max_stress_ratio := overall_max_stress_ratio,
          nodes_with_displacements := worst_case.nodes_with_displacements }

/-- Check status literal `"PASS" | "FAIL"` from code_checks.py. -/
inductive PF where
  | PASS
  | FAIL
deriving DecidableEq

/-- Code identifier literal `"AISC" | "NDS"` from code_checks.py. -/
inductive DesignCode where
  | AISC
  | NDS
deriving DecidableEq

/-- CodeCheckResult from code_checks.py.  The human-readable `details` string
(built with float `:.1f` formatting) is presentation-only and modelled as the
empty string. -/
structure CodeCheckResult where
  code : DesignCode
  check_name : String
  status : PF
  ratio : ℚ
  reference : String
  details : String := ""
deriving DecidableEq

/-- MemberCodeCheck from code_checks.py. -/
structure MemberCodeCheck where
  member_id : String
  checks : List CodeCheckResult
  overall_status : PF
deriving DecidableEq

/-- `check_aisc_slenderness` from code_checks.py: KL/r against the AISC limit
of 200, with K = 1.0 and slenderness 0 for a non-positive radius of
gyration. -/
def check_aisc_slenderness (length radius_of_gyration fy E axial_force : ℚ) :
    CodeCheckResult :=
  let K : ℚ := 1
  let slenderness :=
    if radius_of_gyration > 0 then K * length / radius_of_gyration else 0
  let limit : ℚ := 200
  let ratio := slenderness / limit
  let status : PF := if slenderness ≤ limit then .PASS else .FAIL
  { code := .AISC, check_name := "Slenderness Ratio", status := status,
    ratio := ratio, reference := "AISC 360-16 Section E2" }

/-- Elastic (Euler) critical buckling stress of
check_aisc_compression_capacity: `Fe = pi^2 E / (K L / r)^2` with K = 1.0,
and 0 for a non-positive radius of gyration.  `pi2` stands for the float
`math.pi ** 2`. -/
def aiscFe (pi2 E length r : ℚ) : ℚ :=
  if r > 0 then pi2 * E / (1 * length / r) ^ 2 else 0

/-- Critical stress of check_aisc_compression_capacity:
`0.658 ** (fy / Fe) * fy` in the inelastic range `Fe >= 0.44 fy`, else
`0.877 * Fe`.  `powQ` stands for the float `**` operator. -/
def aiscFcr (powQ : ℚ → ℚ → ℚ) (Fe fy : ℚ) : ℚ :=
  if Fe ≥ 0.44 * fy then powQ 0.658 (fy / Fe) * fy else 0.877 * Fe

/-- LRFD design compressive capacity `Pc = 0.90 * Fcr * area` of
check_aisc_compression_capacity. -/
def aiscPc (pi2 : ℚ) (powQ : ℚ → ℚ → ℚ) (area length r fy E : ℚ) : ℚ :=
  0.90 * (aiscFcr powQ (aiscFe pi2 E length r) fy * area)

/-- `check_aisc_compression_capacity` from code_checks.py: not applicable
(PASS, ratio 0) for a non-compressive axial force; otherwise the Euler /
AISC critical-stress capacity check, with ratio 999.0 for a non-positive
capacity. -/
def check_aisc_compression_capacity (pi2 : ℚ) (powQ : ℚ → ℚ → ℚ)
    (area length radius_of_gyration fy E axial_force : ℚ) : CodeCheckResult :=
  if axial_force ≥ 0 then
    { code := .AISC, check_name := "Compression Capacity", status := .PASS,
      ratio := 0, reference := "AISC 360-16 Chapter E" }
  else
    let Pc := aiscPc pi2 powQ area length radius_of_gyration fy E
    let demand := |axial_force|
    let ratio := if Pc > 0 then demand / Pc else 999
    let status : PF := if ratio ≤ 1 then .PASS else .FAIL
    { code := .AISC, check_name := "Compression Capacity", status := status,
      ratio := ratio, reference := "AISC 360-16 Chapter E" }

/-- `check_aisc_tension_capacity` from code_checks.py. -/
def check_aisc_tension_capacity (area fy fu axial_force : ℚ) : CodeCheckResult :=
  if axial_force ≤ 0 then
    { code := .AISC, check_name := "Tension Capacity", status := .PASS,
      ratio := 0, reference := "AISC 360-16 Chapter D" }
  else
    let Pt := 0.90 * (fy * area)
    let demand := |axial_force|
    let ratio := if Pt > 0 then demand / Pt else 999
    let status : PF := if ratio ≤ 1 then .PASS else .FAIL
    { code := .AISC, check_name := "Tension Capacity", status := status,
      ratio := ratio, reference := "AISC 360-16 Chapter D" }

/-- `check_aisc_combined_loading` from code_checks.py: the AISC 360-16
Chapter H interaction equations over the supplied capacities Pc and Mc. -/
def check_aisc_combined_loading (area section_modulus axial_force moment fy
    Pc Mc : ℚ) : CodeCheckResult :=
  let Pu := |axial_force|
  let Mu := |moment|
  if Pc ≤ 0 ∨ Mc ≤ 0 then
    { code := .AISC, check_name := "Combined Loading", status := .FAIL,
      ratio := 999, reference := "AISC 360-16 Chapter H" }
  else
    let axial_r := Pu / Pc
    let ratio :=
      if axial_r ≥ 0.2 then axial_r + 8 / 9 * (Mu / Mc)
      else Pu / (2 * Pc) + Mu / Mc
    let status : PF := if ratio ≤ 1 then .PASS else .FAIL
    { code := .AISC, check_name := "Combined Loading", status := status,
      ratio := ratio, reference := "AISC 360-16 Chapter H" }

/-- `perform_code_checks` from code_checks.py: material lookup (its
`ValueError` propagates unwrapped), then for AISC the slenderness check,
the compression or tension capacity check by the sign of the axial force,
and, when `abs(moment) > 1.0`, the combined-loading check called with
`Pc = compression_check.ratio * abs(axial_force)` (1e9 when not in
compression or when the compression ratio is 0) and
`Mc = 0.90 * fy * section_modulus`; for NDS a fixed placeholder. -/
def perform_code_checks (pi2 : ℚ) (powQ : ℚ → ℚ → ℚ) (member_id : String)
    (length area section_modulus radius_of_gyration axial_force moment : ℚ)
    (material_name : String) (code : DesignCode) :
    Except AppError MemberCodeCheck :=
  match get_material material_name with
  | .error e => .error e
  | .ok material =>
    let checks : List CodeCheckResult :=
      match code with
      | .AISC =>
        let slenderness_check :=
          check_aisc_slenderness length radius_of_gyration material.fy
            material.E axial_force
        let compChecks :=
          if axial_force < 0 then
            [check_aisc_compression_capacity pi2 powQ area length
              radius_of_gyration material.fy material.E axial_force]
          else []
        let Pc :=
          if axial_force < 0 then
            let compression_check :=
              check_aisc_compression_capacity pi2 powQ area length
                radius_of_gyration material.fy material.E axial_force
            if compression_check.ratio > 0 then
              compression_check.ratio * |axial_force|
            else 1000000000
          else 1000000000
        let tensionChecks :=
          if axial_force > 0 then
            [check_aisc_tension_capacity area material.fy (1.5 * material.fy)
              axial_force]
          else []
        let combinedChecks :=
          if |moment| > 1 then
            let Mc := 0.90 * (material.fy * section_modulus)
            [check_aisc_combined_loading area section_modulus axial_force
              moment material.fy Pc Mc]
          else []
        [slenderness_check] ++ compChecks ++ tensionChecks ++ combinedChecks
      | .NDS =>
        [{ code := .NDS, check_name := "NDS Check", status := .PASS,
           ratio := 0.5, reference := "NDS 2018 (placeholder)" }]
    let overall_status : PF :=
      if checks.any (fun c => c.status = .FAIL) then .FAIL else .PASS
    .ok { member_id := member_id, checks := checks,
          overall_status := overall_status }

/-- The `Node` pydantic model exactly as the frozen schemas.py declares it
(lines 7-11): only `id`, `x`, `y`. -/
structure NodeSchema where
  id : String
  x : ℚ
  y : ℚ
deriving DecidableEq

/-- The `AnalysisResults` pydantic model exactly as the frozen schemas.py
declares it (lines 59-65): no nodal displacement list. -/
structure AnalysisResultsSchema where
  member_forces : List MemberForce
  reactions : List Reaction
  max_deflection : ℚ
  safety_status : SafetyStatus
  max_stress_ratio : ℚ
deriving DecidableEq

/-- The constructor call
`Node(id=..., x=..., y=..., displacement_x=..., displacement_y=...)` of
fea_solver.py line 194 under the schemas.py declaration: a pydantic
BaseModel with the default configuration silently ignores keyword arguments
that are not declared fields, so both displacement components are
dropped. -/
def NodeSchema.pydanticMk (id : String) (x y _displacement_x
    _displacement_y : ℚ) : NodeSchema :=
  { id := id, x := x, y := y }

/-- The constructor call `AnalysisResults(..., nodes_with_displacements=...)`
of fea_solver.py line 210 under the schemas.py declaration: the
`nodes_with_displacements` keyword names no declared field and is silently
dropped by pydantic. -/
def AnalysisResultsSchema.pydanticMk (member_forces : List MemberForce)
    (reactions : List Reaction) (max_deflection : ℚ)
    (safety_status : SafetyStatus) (max_stress_ratio : ℚ)
    (_nodes_with_displacements : List NodeSchema) : AnalysisResultsSchema :=
  { member_forces := member_forces, reactions := reactions,
    max_deflection := max_deflection, safety_status := safety_status,
    max_stress_ratio := max_stress_ratio }

/-- The threshold rule of spec sections 4.2 and 8 relating a safety status
to a maximum stress ratio: FAIL iff the ratio is at least 1.0, WARNING iff
it lies in [0.8, 1.0), PASS iff it is below 0.8. -/
def statusMatches (st : SafetyStatus) (r : ℚ) : Prop :=
  (st = .FAIL ↔ 1 ≤ r) ∧
  (st = .WARNING ↔ 0.8 ≤ r ∧ r < 1) ∧
  (st = .PASS ↔ r < 0.8)

/-- All stress-ratio (or other projected) values of a given member across a
list of combination results, in iteration order: the flattened projections
of every member-force record whose id matches. -/
def memberValues (rs : List (String × AnalysisResults)) (member_id : String)
    (f : MemberForce → ℚ) : List ℚ :=
  rs.foldr
    (fun p acc =>
      ((p.2.member_forces.filter (fun mf => mf.member_id = member_id)).map f)
        ++ acc)
    []

/-- `v` is the maximum of the values in `l`: it is attained and dominates
every value. -/
def isMaxOf (v : ℚ) (l : List ℚ) : Prop :=
  v ∈ l ∧ ∀ w ∈ l, w ≤ v

/-- The combined-loading interaction ratio as the spec words it
(spec section 4.3, claim C4): computed from the design axial capacity Pc
and design moment capacity Mc of the member itself, with the H1-1a branch
when the axial ratio is at least 0.2 and H1-1b otherwise. -/
def specCombinedInteraction (Pc Mc axial moment : ℚ) : ℚ :=
  let axial_r := |axial| / Pc
  if axial_r ≥ 0.2 then axial_r + 8 / 9 * (|moment| / Mc)
  else axial_r / 2 + |moment| / Mc

/-- Stand-in for `math.sqrt` in concrete witness instantiations (its value
is irrelevant to every claim under study). -/
def wSqrt : ℚ → ℚ := fun q => q

/-- A concrete backend for witness instantiations: every extraction is
zero. -/
def wBackend : FemBackend := fun _ _ _ =>
  .ok ⟨fun _ => 0, fun _ => 0, fun _ => 0, fun _ => 0, fun _ => 0,
       fun _ => 0, fun _ => 0⟩

/-- A concrete backend for witness instantiations with nonzero member
forces: axial 100 N, shear 5 N, moment 2 N mm everywhere. -/
def wBackendF : FemBackend := fun _ _ _ =>
  .ok ⟨fun _ => 100, fun _ => 5, fun _ => 2, fun _ => 0, fun _ => 0,
       fun _ => 0, fun _ => 0⟩

/-- An empty structural model for witness instantiations. -/
def wModelEmpty : StructuralModel :=
  { nodes := [], members := [], supports := [] }

/-- A one-member truss model for witness instantiations. -/
def wModelTruss : StructuralModel :=
  { nodes := [{ id := "N1", x := 0, y := 0 }, { id := "N2", x := 1000, y := 0 }],
    members := [{ id := "M1", start_node := "N1", end_node := "N2" }],
    supports := [{ node_id := "N1", type := .pin },
                 { node_id := "N2", type := .roller }] }

end AutoStruct

namespace AutoStruct.SpecSolver

/-!
Modelled from the spec: the direct stiffness method core of section 4.1.
The repository delegates matrix assembly, boundary conditions, the linear
solve and force recovery to the external PyNite library, which is not part
of src/; the definitions below model that missing core from the wording of
spec sections 3 and 4.1 so that the equilibrium property (spec section 8)
can be settled.  A solved state is a nodal displacement assignment `u`
(translations and in-plane rotation per node id) that satisfies the
stiffness equations at every unrestrained translational degree of freedom;
reactions are the residual nodal forces at supports (spec step 7).
-/

/-- Modelled from the spec: `truss` or `frame` structure kind (spec
section 3), selecting axial-only or Euler-Bernoulli member stiffness. -/
inductive StructureKind where
  | truss
  | frame
deriving DecidableEq

/-- Modelled from the spec: nodal displacement state,
(x translation, y translation, in-plane rotation) per node id. -/
abbrev Disp : Type := String → ℚ × ℚ × ℚ

/-- Coordinates of a node id in the model (0,0 for an absent id; the
theorems assume every referenced id exists, per the spec invariant). -/
def coordOf (nodes : List Node) (nid : String) : ℚ × ℚ :=
  match nodes.find? (fun n => n.id = nid) with
  | some n => (n.x, n.y)
  | none => (0, 0)

/-- Modelled from the spec: member length via the float square root,
threaded as the parameter `sqrtQ`. -/
def memberLength (sqrtQ : ℚ → ℚ) (nodes : List Node) (m : Member) : ℚ :=
  let a := coordOf nodes m.start_node
  let b := coordOf nodes m.end_node
  sqrtQ ((b.1 - a.1) ^ 2 + (b.2 - a.2) ^ 2)

/-- Modelled from the spec (step 2/6): the axial member-axis force the
member exerts through its start node under displacements `u` - the
1D stiffness term `EA/L` times the elongation measured along the member
orientation `(c, s)`, with sign such that this is the nodal force the
stiffness matrix demands at the start node. -/
def axialN (sqrtQ : ℚ → ℚ) (EA : ℚ) (nodes : List Node) (m : Member)
    (u : Disp) : ℚ :=
  let a := coordOf nodes m.start_node
  let b := coordOf nodes m.end_node
  let L := memberLength sqrtQ nodes m
  let c := (b.1 - a.1) / L
  let s := (b.2 - a.2) / L
  let ua := u m.start_node
  let ub := u m.end_node
  EA / L * ((ua.1 - ub.1) * c + (ua.2.1 - ub.2.1) * s)

/-- Modelled from the spec (step 2): the transverse (shear) nodal force at
the start node of a frame member from the Euler-Bernoulli bending stiffness
(terms in E I and L over transverse end displacements and end rotations);
zero for a truss member, whose rotational degrees of freedom carry no
stiffness. -/
def shearV (kind : StructureKind) (sqrtQ : ℚ → ℚ) (EI : ℚ)
    (nodes : List Node) (m : Member) (u : Disp) : ℚ :=
  match kind with
  | .truss => 0
  | .frame =>
    let a := coordOf nodes m.start_node
    let b := coordOf nodes m.end_node
    let L := memberLength sqrtQ nodes m
    let c := (b.1 - a.1) / L
    let s := (b.2 - a.2) / L
    let ua := u m.start_node
    let ub := u m.end_node
    let va := -s * ua.1 + c * ua.2.1
    let vb := -s * ub.1 + c * ub.2.1
    EI * (12 / L ^ 3 * (va - vb) + 6 / L ^ 2 * (ua.2.2 + ub.2.2))

/-- Modelled from the spec (step 2): the global x component of the nodal
force a member demands at its start node: the axial force along the member
direction `(c, s)` plus the shear along the transverse direction
`(-s, c)`. -/
def memberFx (kind : StructureKind) (sqrtQ : ℚ → ℚ) (EA EI : ℚ)
    (nodes : List Node) (m : Member) (u : Disp) : ℚ :=
  let a := coordOf nodes m.start_node
  let b := coordOf nodes m.end_node
  let L := memberLength sqrtQ nodes m
  let c := (b.1 - a.1) / L
  let s := (b.2 - a.2) / L
  axialN sqrtQ EA nodes m u * c + shearV kind sqrtQ EI nodes m u * (-s)

/-- Modelled from the spec (step 2): the global y component of the nodal
force a member demands at its start node. -/
def memberFy (kind : StructureKind) (sqrtQ : ℚ → ℚ) (EA EI : ℚ)
    (nodes : List Node) (m : Member) (u : Disp) : ℚ :=
  let a := coordOf nodes m.start_node
  let b := coordOf nodes m.end_node
  let L := memberLength sqrtQ nodes m
  let c := (b.1 - a.1) / L
  let s := (b.2 - a.2) / L
  axialN sqrtQ EA nodes m u * s + shearV kind sqrtQ EI nodes m u * c

/-- Modelled from the spec (step 2): a member demands equal and opposite
translational forces at its two end nodes (the two translation rows of the
member stiffness matrix sum to zero); x component of its contribution at an
arbitrary node id. -/
def contribX (kind : StructureKind) (sqrtQ : ℚ → ℚ) (EA EI : ℚ)
    (nodes : List Node) (m : Member) (u : Disp) (n : String) : ℚ :=
  if n = m.start_node then memberFx kind sqrtQ EA EI nodes m u
  else if n = m.end_node then -memberFx kind sqrtQ EA EI nodes m u
  else 0

/-- Modelled from the spec (step 2): y component of the member contribution
at an arbitrary node id. -/
def contribY (kind : StructureKind) (sqrtQ : ℚ → ℚ) (EA EI : ℚ)
    (nodes : List Node) (m : Member) (u : Disp) (n : String) : ℚ :=
  if n = m.start_node then memberFy kind sqrtQ EA EI nodes m u
  else if n = m.end_node then -memberFy kind sqrtQ EA EI nodes m u
  else 0

/-- Modelled from the spec (step 2): x component of the assembled global
stiffness action `(K u)` at a node - the accumulated member contributions. -/
def intForceX (kind : StructureKind) (sqrtQ : ℚ → ℚ) (EA EI : ℚ)
    (model : StructuralModel) (u : Disp) (n : String) : ℚ :=
  (model.members.map (fun m => contribX kind sqrtQ EA EI model.nodes m u n)).sum

/-- Modelled from the spec (step 2): y component of the assembled global
stiffness action at a node. -/
def intForceY (kind : StructureKind) (sqrtQ : ℚ → ℚ) (EA EI : ℚ)
    (model : StructuralModel) (u : Disp) (n : String) : ℚ :=
  (model.members.map (fun m => contribY kind sqrtQ EA EI model.nodes m u n)).sum

/-- Modelled from the spec (step 4): applied x load accumulated at a node
(multiple loads at one node are additive, spec section 3). -/
def appliedX (loads : List Load) (n : String) : ℚ :=
  ((loads.filter (fun l => l.node_id = n)).map Load.fx).sum

/-- Modelled from the spec (step 4): applied y load accumulated at a node. -/
def appliedY (loads : List Load) (n : String) : ℚ :=
  ((loads.filter (fun l => l.node_id = n)).map Load.fy).sum

/-- A support restrains the x translation unless it is a roller
(spec section 3). -/
def restrainsX (s : Support) : Bool :=
  match s.type with
  | .roller => false
  | _ => true

/-- Whether the x translation at node id `n` is restrained by some
support. -/
def restrainedX (supports : List Support) (n : String) : Bool :=
  supports.any (fun s => s.node_id = n && restrainsX s)

/-- Whether the y translation at node id `n` is restrained by some support
(pin, roller and fixed all restrain y, spec section 3). -/
def restrainedY (supports : List Support) (n : String) : Bool :=
  supports.any (fun s => s.node_id = n)

/-- Modelled from the spec (step 5): the solved state satisfies the
stiffness equations at every unrestrained translational degree of freedom -
the assembled stiffness action there equals the applied load.  (The
rotational equations of frame analysis are not needed for the equilibrium
theorem, which therefore assumes strictly less.) -/
def FreeEquilibrium (kind : StructureKind) (sqrtQ : ℚ → ℚ) (EA EI : ℚ)
    (model : StructuralModel) (loads : List Load) (u : Disp) : Prop :=
  ∀ n ∈ model.nodes.map Node.id,
    (restrainedX model.supports n = false →
      intForceX kind sqrtQ EA EI model u n = appliedX loads n) ∧
    (restrainedY model.supports n = false →
      intForceY kind sqrtQ EA EI model u n = appliedY loads n)

/-- Modelled from the spec (step 7): the reaction at a support node is the
residual force there - stiffness action minus applied load - in each
restrained direction, and zero in an unrestrained direction (a roller
reports no horizontal reaction). -/
def specReaction (kind : StructureKind) (sqrtQ : ℚ → ℚ) (EA EI : ℚ)
    (model : StructuralModel) (loads : List Load) (u : Disp)
    (s : Support) : Reaction :=
  { node_id := s.node_id,
    rx := if restrainsX s then
            intForceX kind sqrtQ EA EI model u s.node_id -
              appliedX loads s.node_id
          else 0,
    ry := intForceY kind sqrtQ EA EI model u s.node_id -
            appliedY loads s.node_id }

/-- Modelled from the spec (step 7): the reaction list, one record per
support. -/
def specReactions (kind : StructureKind) (sqrtQ : ℚ → ℚ) (EA EI : ℚ)
    (model : StructuralModel) (loads : List Load) (u : Disp) :
    List Reaction :=
  model.supports.map (specReaction kind sqrtQ EA EI model loads u)

end AutoStruct.SpecSolver

namespace AutoStruct

/-! ### General lemmas -/

/-- A left fold of `max` dominates its initial value. -/
theorem le_foldl_max (l : List ℚ) (a : ℚ) : a ≤ l.foldl max a := by
  induction l generalizing a with
  | nil => exact le_refl a
  | cons x xs ih =>
    calc a ≤ max a x := le_max_left a x
      _ ≤ _ := ih (max a x)

/-- A left fold of `max` dominates every element of the list. -/
theorem foldl_max_le_all (l : List ℚ) (a : ℚ) :
    ∀ v ∈ l, v ≤ l.foldl max a := by
  induction l generalizing a with
  | nil => intro v hv; cases hv
  | cons x xs ih =>
    intro v hv
    rw [List.foldl_cons]
    cases hv with
    | head => exact le_trans (le_max_right a x) (le_foldl_max xs (max a x))
    | tail _ hv2 => exact ih (max a x) v hv2

/-- A left fold of `max` is the initial value or an element. -/
theorem foldl_max_eq_or_mem (l : List ℚ) (a : ℚ) :
    l.foldl max a = a ∨ l.foldl max a ∈ l := by
  induction l generalizing a with
  | nil => exact Or.inl rfl
  | cons x xs ih =>
    rcases ih (max a x) with h | h
    · rcases max_cases a x with ⟨hm, _⟩ | ⟨hm, _⟩
      · exact Or.inl (by rw [List.foldl_cons, h, hm])
      · exact Or.inr (by rw [List.foldl_cons, h, hm]; exact List.mem_cons_self x xs)
    · exact Or.inr (List.mem_cons_of_mem x h)

/-- Over a non-empty list of non-negative values, a left fold of `max`
starting at 0 attains an element of the list. -/
theorem foldl_max_zero_mem (l : List ℚ) (hne : l ≠ [])
    (hnn : ∀ v ∈ l, 0 ≤ v) : l.foldl max 0 ∈ l := by
  rcases foldl_max_eq_or_mem l 0 with h | h
  · cases l with
    | nil => exact absurd rfl hne
    | cons x xs =>
      have hx : x ≤ List.foldl max 0 (x :: xs) :=
        foldl_max_le_all _ _ x (List.mem_cons_self x xs)
      have hx0 : (0 : ℚ) ≤ x := hnn x (List.mem_cons_self x xs)
      have : x = (0 : ℚ) := le_antisymm (h ▸ hx) hx0
      rw [h, ← this]
      exact List.mem_cons_self x xs
  · exact h

end AutoStruct

namespace AutoStruct

/-- Characterisation of a successful `solve`: the material and backend calls
succeeded and every field of the result is the corresponding computed
value. -/
theorem solve_ok_iff (backend : FemBackend) (sqrtQ : ℚ → ℚ)
    (model : StructuralModel) (loads : List Load) (material_name : String)
    (res : AnalysisResults)
    (h : solve backend sqrtQ model loads material_name = .ok res) :
    ∃ material fem,
      get_material material_name = .ok material ∧
      backend model loads material = .ok fem ∧
      res.member_forces = model.members.map
        (memberForceOf (model.structure_type = "frame") material fem) ∧
      res.max_stress_ratio =
        res.member_forces.foldl (fun acc mf => max acc mf.stress_ratio) 0 ∧
      res.safety_status = safetyStatusOf res.max_stress_ratio ∧
      res.reactions = model.supports.map (fun s =>
        { node_id := s.node_id, rx := fem.rxnFX s.node_id,
          ry := fem.rxnFY s.node_id : Reaction }) ∧
      res.nodes_with_displacements = model.nodes.map (fun n =>
        { id := n.id, x := n.x, y := n.y,
          displacement_x := fem.dispDX n.id,
          displacement_y := fem.dispDY n.id : Node }) := by
  unfold solve at h
  cases hg : get_material material_name with
  | error e => rw [hg] at h; exact absurd h (by simp)
  | ok material =>
    rw [hg] at h
    dsimp only at h
    cases hb : backend model loads material with
    | error msg => rw [hb] at h; exact absurd h (by simp)
    | ok fem =>
      rw [hb] at h
      dsimp only at h
      simp only [Except.ok.injEq] at h
      exact ⟨material, fem, rfl, hb, by rw [← h], by rw [← h], by rw [← h],
        by rw [← h], by rw [← h]⟩

/-- Characterisation of a successful `get_envelope_results`: the input list
is non-empty and every field of the result is the corresponding computed
value. -/
theorem envelope_ok_iff (combination_results : List (String × AnalysisResults))
    (env : AnalysisResults)
    (h : get_envelope_results combination_results = .ok env) :
    ∃ c0 first rest, combination_results = (c0, first) :: rest ∧
      env.member_forces = (first.member_forces.map MemberForce.member_id).map
        (envelopeMemberForce ((c0, first) :: rest)) ∧
      env.max_stress_ratio = listMaxFrom first.max_stress_ratio
        (rest.map (fun p => p.2.max_stress_ratio)) ∧
      env.safety_status = safetyStatusOf env.max_stress_ratio := by
  cases combination_results with
  | nil => exact absurd h (by simp [get_envelope_results])
  | cons p rest =>
    obtain ⟨c0, first⟩ := p
    unfold get_envelope_results at h
    simp only [Except.ok.injEq] at h
    exact ⟨c0, first, rest, rfl, by rw [← h], by rw [← h], by rw [← h]⟩

/-- The threshold selector satisfies the threshold rule. -/
theorem safetyStatusOf_matches (r : ℚ) : statusMatches (safetyStatusOf r) r := by
  unfold statusMatches safetyStatusOf
  split_ifs with h1 h2
  · refine And.intro (Iff.intro ?_ ?_)
      (And.intro (Iff.intro ?_ ?_) (Iff.intro ?_ ?_))
    · exact fun _ => h1
    · exact fun _ => rfl
    · exact fun hh => nomatch hh
    · exact fun hh => absurd hh.2 (not_lt.mpr h1)
    · exact fun hh => nomatch hh
    · exact fun hh => absurd hh (not_lt.mpr (by linarith))
  · refine And.intro (Iff.intro ?_ ?_)
      (And.intro (Iff.intro ?_ ?_) (Iff.intro ?_ ?_))
    · exact fun hh => nomatch hh
    · exact fun hh => absurd hh h1
    · exact fun _ => ⟨h2, not_le.mp h1⟩
    · exact fun _ => rfl
    · exact fun hh => nomatch hh
    · exact fun hh => absurd hh (not_lt.mpr h2)
  · refine And.intro (Iff.intro ?_ ?_)
      (And.intro (Iff.intro ?_ ?_) (Iff.intro ?_ ?_))
    · exact fun hh => nomatch hh
    · exact fun hh => absurd hh h1
    · exact fun hh => nomatch hh
    · exact fun hh => absurd hh.1 h2
    · exact fun _ => not_le.mp h2
    · exact fun _ => rfl

/-- C1: for every successful call to solve and to get_envelope_results, the
returned safety_status is determined by the returned max_stress_ratio: FAIL
iff it is at least 1.0, WARNING iff it lies in [0.8, 1.0), and PASS
otherwise. -/
theorem solve_and_envelope_status_determined_by_max_ratio
    (backend : FemBackend) (sqrtQ : ℚ → ℚ) (model : StructuralModel)
    (loads : List Load) (material_name : String) (res : AnalysisResults)
    (combination_results : List (String × AnalysisResults))
    (env : AnalysisResults)
    (hsolve : solve backend sqrtQ model loads material_name = .ok res)
    (henv : get_envelope_results combination_results = .ok env) :
    statusMatches res.safety_status res.max_stress_ratio ∧
    statusMatches env.safety_status env.max_stress_ratio := by
  obtain ⟨-, -, -, -, -, -, hs, -, -⟩ := solve_ok_iff _ _ _ _ _ _ hsolve
  obtain ⟨-, -, -, -, -, -, hs2⟩ := envelope_ok_iff _ _ henv
  rw [hs, hs2]
  exact ⟨safetyStatusOf_matches _, safetyStatusOf_matches _⟩

/-- The analysis results produced by the trivial witness inputs. -/
def wResEmpty : AnalysisResults :=
  { member_forces := [], reactions := [], max_deflection := 0,
    safety_status := .PASS, max_stress_ratio := 0,
    nodes_with_displacements := [] }

/-- Witness for C1: the theorem applied to a concrete empty model with the
zero backend and a one-entry combination map. -/
theorem solve_and_envelope_status_determined_by_max_ratio_witness :
    statusMatches wResEmpty.safety_status wResEmpty.max_stress_ratio ∧
    statusMatches wResEmpty.safety_status wResEmpty.max_stress_ratio :=
  solve_and_envelope_status_determined_by_max_ratio wBackend wSqrt wModelEmpty
    [] "steel" wResEmpty [("combo", wResEmpty)] wResEmpty
    (by
      have hm : get_material "steel" =
          .ok ⟨"steel", 200000, 250, 7850, "Structural Steel (A36)"⟩ := rfl
      norm_num [solve, hm, wBackend, wSqrt, wModelEmpty, wResEmpty,
        safetyStatusOf])
    (by norm_num [get_envelope_results, wResEmpty, listMaxFrom, safetyStatusOf,
      worstCaseBy])

end AutoStruct

namespace AutoStruct

/-- Every material in the preset catalog has a positive yield strength. -/
theorem get_material_fy_pos (name : String) (m : Material)
    (h : get_material name = .ok m) : 0 < m.fy := by
  unfold get_material at h
  dsimp only at h
  cases hf : MATERIALS.find? (fun p => p.1 = pyLower name) with
  | none => rw [hf] at h; exact absurd h (by simp)
  | some p =>
    rw [hf] at h
    simp only [Except.ok.injEq] at h
    have hp := List.mem_of_find?_eq_some hf
    have : p.2.fy = 250 ∨ p.2.fy = 270 ∨ p.2.fy = 40 := by
      simp only [MATERIALS, List.mem_cons, List.not_mem_nil, or_false] at hp
      rcases hp with rfl | rfl | rfl
      · exact Or.inl rfl
      · exact Or.inr (Or.inl rfl)
      · exact Or.inr (Or.inr rfl)
    rw [← h]
    rcases this with hfy | hfy | hfy <;> rw [hfy] <;> norm_num

/-- The stress ratio computed for a member is non-negative whenever the
material yield strength is positive. -/
theorem memberForceOf_ratio_nonneg (isFrame : Bool) (material : Material)
    (fem : FemResults) (m : Member) (hfy : 0 < material.fy) :
    0 ≤ (memberForceOf isFrame material fem m).stress_ratio := by
  unfold memberForceOf
  cases isFrame <;> simp only []
  · apply div_nonneg _ (le_of_lt hfy)
    apply div_nonneg (abs_nonneg _)
    norm_num [trussArea]
  · apply div_nonneg _ (le_of_lt hfy)
    apply add_nonneg
    · apply div_nonneg (abs_nonneg _); norm_num [frameArea]
    · split_ifs with hS
      · exact div_nonneg (abs_nonneg _) (le_of_lt hS)
      · exact le_refl 0

/-- Accumulating a running maximum of projections is folding `max` over the
projected list. -/
theorem foldl_max_map {α : Type} (l : List α) (f : α → ℚ) (a : ℚ) :
    l.foldl (fun acc x => max acc (f x)) a = (l.map f).foldl max a := by
  induction l generalizing a with
  | nil => rfl
  | cons x xs ih => simp only [List.foldl_cons, List.map_cons]; exact ih _

/-- C9: for every AnalysisResults produced by solve over a model with at
least one member, max_stress_ratio equals the maximum of the stress_ratio
values of the returned member forces: it is attained by some member force
and dominates all of them. -/
theorem solve_max_stress_ratio_is_member_max (backend : FemBackend)
    (sqrtQ : ℚ → ℚ) (model : StructuralModel) (loads : List Load)
    (material_name : String) (res : AnalysisResults)
    (hsolve : solve backend sqrtQ model loads material_name = .ok res)
    (hne : model.members ≠ []) :
    res.max_stress_ratio ∈ res.member_forces.map MemberForce.stress_ratio ∧
    ∀ mf ∈ res.member_forces, mf.stress_ratio ≤ res.max_stress_ratio := by
  obtain ⟨material, fem, hmat, -, hmf, hmax, -, -, -⟩ :=
    solve_ok_iff _ _ _ _ _ _ hsolve
  have hfy := get_material_fy_pos _ _ hmat
  have hfold : res.max_stress_ratio =
      (res.member_forces.map MemberForce.stress_ratio).foldl max 0 := by
    rw [hmax, foldl_max_map]
  constructor
  · rw [hfold]
    apply foldl_max_zero_mem
    · intro hnil
      rw [hmf] at hnil
      rw [List.map_eq_nil, List.map_eq_nil] at hnil
      exact hne hnil
    · intro v hv
      rw [hmf] at hv
      simp only [List.map_map, List.mem_map] at hv
      obtain ⟨m, -, rfl⟩ := hv
      exact memberForceOf_ratio_nonneg _ _ _ _ hfy
  · intro mf hmem
    rw [hfold]
    exact foldl_max_le_all _ _ mf.stress_ratio (List.mem_map_of_mem _ hmem)

/-- The analysis results produced by the one-member truss witness model
under the constant-force backend. -/
def wResTruss : AnalysisResults :=
  { member_forces := [{ member_id := "M1", axial := 100, shear := 5,
                        moment := 2, stress := 1/5, stress_ratio := 1/1250 }],
    reactions := [{ node_id := "N1", rx := 0, ry := 0 },
                  { node_id := "N2", rx := 0, ry := 0 }],
    max_deflection := 0,
    safety_status := .PASS,
    max_stress_ratio := 1/1250,
    nodes_with_displacements := [{ id := "N1", x := 0, y := 0 },
                                 { id := "N2", x := 1000, y := 0 }] }

/-- Evaluation of solve on the one-member truss witness model. -/
theorem solve_wModelTruss :
    solve wBackendF wSqrt wModelTruss [] "steel" = .ok wResTruss := by
  have hm : get_material "steel" =
      .ok ⟨"steel", 200000, 250, 7850, "Structural Steel (A36)"⟩ := rfl
  have hs : ¬ ("truss" = "frame") := by decide
  norm_num [solve, hm, wBackendF, wSqrt, wModelTruss, wResTruss,
    memberForceOf, safetyStatusOf, trussArea, hs]

/-- Witness for C9: the theorem applied to the concrete one-member truss. -/
theorem solve_max_stress_ratio_is_member_max_witness :
    wResTruss.max_stress_ratio ∈
      wResTruss.member_forces.map MemberForce.stress_ratio ∧
    ∀ mf ∈ wResTruss.member_forces,
      mf.stress_ratio ≤ wResTruss.max_stress_ratio :=
  solve_max_stress_ratio_is_member_max wBackendF wSqrt wModelTruss [] "steel"
    wResTruss solve_wModelTruss (by simp [wModelTruss])

end AutoStruct

namespace AutoStruct

/-- C8: for every member in a solved model, the reported stress is
abs(axial)/A for truss structures and abs(axial)/A +
abs(moment)*(depth/2)/I for frame structures (simple superposition), and
the reported stress_ratio is the stress divided by the material yield
strength. -/
theorem solve_stress_is_superposition (backend : FemBackend) (sqrtQ : ℚ → ℚ)
    (model : StructuralModel) (loads : List Load) (material_name : String)
    (res : AnalysisResults) (material : Material)
    (hsolve : solve backend sqrtQ model loads material_name = .ok res)
    (hmat : get_material material_name = .ok material) :
    ∀ mf ∈ res.member_forces,
      mf.stress = (if model.structure_type = "frame" then
          |mf.axial| / frameArea + |mf.moment| * (sectionDepth / 2) / frameIz
        else |mf.axial| / trussArea) ∧
      mf.stress_ratio = mf.stress / material.fy := by
  obtain ⟨material2, fem, hmat2, -, hmf, -, -, -, -⟩ :=
    solve_ok_iff _ _ _ _ _ _ hsolve
  rw [hmat] at hmat2
  have hmeq : material2 = material := by
    cases hmat2; rfl
  subst hmeq
  intro mf hmem
  rw [hmf] at hmem
  obtain ⟨m, -, rfl⟩ := List.mem_map.mp hmem
  by_cases hf : model.structure_type = "frame"
  · constructor
    · simp only [memberForceOf, hf, decide_True, if_true]
      rw [if_pos (by norm_num [frameIz, sectionDepth] : frameIz / (sectionDepth / 2) > 0)]
      rw [div_div_eq_mul_div]
    · simp only [memberForceOf]
  · constructor
    · simp only [memberForceOf, hf, decide_False, if_false, if_neg hf]
      exact if_neg (by decide)
    · simp only [memberForceOf]

/-- Witness for C8: the theorem applied to the concrete one-member truss
solved with steel. -/
theorem solve_stress_is_superposition_witness :
    (⟨"M1", 100, 5, 2, 1/5, 1/1250⟩ : MemberForce).stress =
      (if wModelTruss.structure_type = "frame" then
          |(⟨"M1", 100, 5, 2, 1/5, 1/1250⟩ : MemberForce).axial| / frameArea +
            |(⟨"M1", 100, 5, 2, 1/5, 1/1250⟩ : MemberForce).moment| *
              (sectionDepth / 2) / frameIz
        else |(⟨"M1", 100, 5, 2, 1/5, 1/1250⟩ : MemberForce).axial| /
          trussArea) ∧
    (⟨"M1", 100, 5, 2, 1/5, 1/1250⟩ : MemberForce).stress_ratio =
      (⟨"M1", 100, 5, 2, 1/5, 1/1250⟩ : MemberForce).stress /
        (⟨"steel", 200000, 250, 7850, "Structural Steel (A36)"⟩ : Material).fy :=
  solve_stress_is_superposition wBackendF wSqrt wModelTruss [] "steel"
    wResTruss ⟨"steel", 200000, 250, 7850, "Structural Steel (A36)"⟩
    solve_wModelTruss rfl
    ⟨"M1", 100, 5, 2, 1/5, 1/1250⟩ (by simp [wResTruss])

end AutoStruct

namespace AutoStruct

/-- Counterexample to C5: requesting material "concrete" makes solve fail
with the SolverError kind (the blanket `except Exception` of fea_solver.py
line 219 wraps the ValueError of get_material), not with the distinct
configuration-error kind. -/
theorem solve_concrete_raises_solver_error_cex :
    solve wBackend wSqrt wModelEmpty [] "concrete" =
      .error (.solverError ("FEA analysis failed: Unknown material: " ++
        "concrete. Available materials: steel, aluminum, wood")) ∧
    ∀ msg, solve wBackend wSqrt wModelEmpty [] "concrete" ≠
      .error (.valueError msg) := by
  constructor
  · rfl
  · intro msg h
    rw [(rfl : solve wBackend wSqrt wModelEmpty [] "concrete" =
      .error (.solverError ("FEA analysis failed: Unknown material: " ++
        "concrete. Available materials: steel, aluminum, wood")))] at h
    exact nomatch h

/-- C5 amended: for every unknown material name, solve fails before any
backend work starts - the outcome does not depend on the backend or the
loads - but the ValueError of get_material is re-wrapped by the blanket
except clause of solve, so the raised kind is SolverError carrying the
configuration message, not the configuration kind itself. -/
theorem solve_unknown_material_fails_as_wrapped_solver_error
    (backend : FemBackend) (sqrtQ : ℚ → ℚ) (model : StructuralModel)
    (loads : List Load) (name msg : String)
    (h : get_material name = .error (.valueError msg)) :
    solve backend sqrtQ model loads name =
      .error (.solverError ("FEA analysis failed: " ++ msg)) ∧
    ∀ (backend2 : FemBackend) (sqrtQ2 : ℚ → ℚ) (loads2 : List Load),
      solve backend2 sqrtQ2 model loads2 name =
        solve backend sqrtQ model loads name := by
  have key : ∀ (b : FemBackend) (sq : ℚ → ℚ) (l : List Load),
      solve b sq model l name =
        .error (.solverError ("FEA analysis failed: " ++ msg)) := by
    intro b sq l
    unfold solve
    rw [h]
    rfl
  exact ⟨key backend sqrtQ loads,
    fun b2 sq2 l2 => (key b2 sq2 l2).trans (key backend sqrtQ loads).symm⟩

/-- Witness for the amended C5 claim at the concrete name "concrete". -/
theorem solve_unknown_material_fails_as_wrapped_solver_error_witness :
    solve wBackend wSqrt wModelEmpty [] "concrete" =
      .error (.solverError ("FEA analysis failed: " ++
        ("Unknown material: concrete. Available materials: " ++
          "steel, aluminum, wood"))) ∧
    ∀ (backend2 : FemBackend) (sqrtQ2 : ℚ → ℚ) (loads2 : List Load),
      solve backend2 sqrtQ2 wModelEmpty loads2 "concrete" =
        solve wBackend wSqrt wModelEmpty [] "concrete" :=
  solve_unknown_material_fails_as_wrapped_solver_error wBackend wSqrt
    wModelEmpty [] "concrete"
    ("Unknown material: concrete. Available materials: steel, aluminum, wood")
    rfl

end AutoStruct

namespace AutoStruct

/-- The load-case dict misses a name exactly when no load case carries it. -/
theorem lookupCase_none_iff (cs : List LoadCase) (n : String) :
    lookupCase cs n = none ↔ n ∉ cs.map LoadCase.name := by
  unfold lookupCase
  rw [List.find?_eq_none]
  constructor
  · intro h hmem
    obtain ⟨lc, hlc, hname⟩ := List.mem_map.mp hmem
    exact absurd (by simpa using hname) (by simpa using h lc (List.mem_reverse.mpr hlc))
  · intro h lc hlc
    simp only [decide_eq_true_eq]
    intro hname
    exact h (List.mem_map.mpr ⟨lc, List.mem_reverse.mp hlc, hname⟩)

/-- If some factor of the list names a case missing from the load-case
list, the factor loop raises the not-found SolverError naming a missing
case, whatever the accumulated load map. -/
theorem buildComboLoads_missing (cs : List LoadCase)
    (factors : List (String × ℚ))
    (h : ∃ p ∈ factors, p.1 ∉ cs.map LoadCase.name) :
    ∀ lm, ∃ nm, nm ∉ cs.map LoadCase.name ∧
      buildComboLoads cs factors lm =
        .error (.solverError (loadCaseNotFoundMsg nm)) := by
  induction factors with
  | nil => obtain ⟨p, hp, -⟩ := h; exact absurd hp (List.not_mem_nil p)
  | cons q rest ih =>
    intro lm
    obtain ⟨n, f⟩ := q
    cases hl : lookupCase cs n with
    | none =>
      refine ⟨n, (lookupCase_none_iff cs n).mp hl, ?_⟩
      unfold buildComboLoads
      rw [hl]
    | some c =>
      have hnmem : n ∈ cs.map LoadCase.name := by
        by_contra hno
        rw [← lookupCase_none_iff cs n] at hno
        rw [hl] at hno
        exact nomatch hno
      obtain ⟨p, hp, hpn⟩ := h
      cases hp with
      | head => exact absurd hnmem hpn
      | tail _ hp2 =>
        obtain ⟨nm, hm1, hm2⟩ := ih ⟨p, hp2, hpn⟩ (applyCase lm c f)
        refine ⟨nm, hm1, ?_⟩
        unfold buildComboLoads
        rw [hl]
        exact hm2

/-- If every factor names a present case, the factor loop succeeds. -/
theorem buildComboLoads_ok (cs : List LoadCase) (factors : List (String × ℚ))
    (h : ∀ p ∈ factors, p.1 ∈ cs.map LoadCase.name) :
    ∀ lm, ∃ lm2, buildComboLoads cs factors lm = .ok lm2 := by
  induction factors with
  | nil => intro lm; exact ⟨lm, rfl⟩
  | cons q rest ih =>
    intro lm
    obtain ⟨n, f⟩ := q
    cases hl : lookupCase cs n with
    | none =>
      have := (lookupCase_none_iff cs n).mp hl
      exact absurd (h (n, f) (List.mem_cons_self _ _)) this
    | some c =>
      obtain ⟨lm2, hlm2⟩ := ih (fun p hp => h p (List.mem_cons_of_mem _ hp))
        (applyCase lm c f)
      refine ⟨lm2, ?_⟩
      unfold buildComboLoads
      rw [hl]
      exact hlm2

/-- The combination loop with any accumulator fails with the not-found
SolverError when some combination references an absent case name, provided
the per-combination solves succeed. -/
theorem solveCombosGo_missing
    (solveFn : StructuralModel → List Load → String → Except AppError AnalysisResults)
    (model : StructuralModel) (load_cases : List LoadCase)
    (material_name : String) (combos : List LoadCombination)
    (hok : ∀ m l s, ∃ r, solveFn m l s = Except.ok r)
    (hmiss : ∃ c ∈ combos, ∃ p ∈ c.factors,
      p.1 ∉ load_cases.map LoadCase.name) :
    ∀ acc, ∃ nm, nm ∉ load_cases.map LoadCase.name ∧
      solveCombosGo solveFn model load_cases material_name combos acc =
        .error (.solverError (loadCaseNotFoundMsg nm)) := by
  induction combos with
  | nil => obtain ⟨c, hc, -⟩ := hmiss; exact absurd hc (List.not_mem_nil c)
  | cons combo rest ih =>
    intro acc
    by_cases hc : ∃ p ∈ combo.factors, p.1 ∉ load_cases.map LoadCase.name
    · obtain ⟨nm, hm1, hm2⟩ := buildComboLoads_missing load_cases
        combo.factors hc []
      refine ⟨nm, hm1, ?_⟩
      unfold solveCombosGo
      rw [hm2]
    · push_neg at hc
      obtain ⟨lm, hlm⟩ := buildComboLoads_ok load_cases combo.factors hc []
      obtain ⟨r, hr⟩ := hok model (loadMapValues lm) material_name
      have hmiss2 : ∃ c ∈ rest, ∃ p ∈ c.factors,
          p.1 ∉ load_cases.map LoadCase.name := by
        obtain ⟨c, hcm, p, hp, hpn⟩ := hmiss
        cases hcm with
        | head => exact absurd (hc p hp) hpn
        | tail _ hcm2 => exact ⟨c, hcm2, p, hp, hpn⟩
      obtain ⟨nm, hm1, hm2⟩ := ih hmiss2 (acc ++ [(combo.name, r)])
      refine ⟨nm, hm1, ?_⟩
      unfold solveCombosGo
      rw [hlm]
      dsimp only
      rw [hr]
      exact hm2

/-- C6: whenever some combination references a load case name absent from
the load-case list (and solving itself succeeds on every input), the whole
batch fails: solve_with_combinations raises a SolverError whose message
names a missing load case, and no partial result map is returned. -/
theorem solve_with_combinations_missing_case_fails_batch
    (solveFn : StructuralModel → List Load → String → Except AppError AnalysisResults)
    (model : StructuralModel) (load_cases : List LoadCase)
    (combos : List LoadCombination) (material_name : String)
    (hok : ∀ m l s, ∃ r, solveFn m l s = Except.ok r)
    (hmiss : ∃ c ∈ combos, ∃ p ∈ c.factors,
      p.1 ∉ load_cases.map LoadCase.name) :
    ∃ nm, nm ∉ load_cases.map LoadCase.name ∧
      solve_with_combinations solveFn model load_cases combos material_name =
        .error (.solverError (loadCaseNotFoundMsg nm)) ∧
      ∀ rs, solve_with_combinations solveFn model load_cases combos
        material_name ≠ .ok rs := by
  obtain ⟨nm, hm1, hm2⟩ := solveCombosGo_missing solveFn model load_cases
    material_name combos hok hmiss []
  have hm3 : solve_with_combinations solveFn model load_cases combos
      material_name = .error (.solverError (loadCaseNotFoundMsg nm)) := hm2
  refine ⟨nm, hm1, hm3, ?_⟩
  intro rs hrs
  rw [hm3] at hrs
  exact nomatch hrs

/-- A one-case load-case list for the C6 witness. -/
def wLoadCases : List LoadCase :=
  [{ name := "Dead", type := "dead", loads := [{ node_id := "B", fy := -500 }] }]

/-- A combination referencing the undefined case "Live" for the C6
witness. -/
def wCombos : List LoadCombination :=
  [{ name := "D+L", factors := [("Dead", 12/10), ("Live", 16/10)] }]

/-- Witness for C6: the theorem applied to a combination that references
the undefined load case "Live". -/
theorem solve_with_combinations_missing_case_fails_batch_witness :
    ∃ nm, nm ∉ wLoadCases.map LoadCase.name ∧
      solve_with_combinations (fun _ _ _ => .ok wResEmpty) wModelTruss
        wLoadCases wCombos "steel" =
        .error (.solverError (loadCaseNotFoundMsg nm)) ∧
      ∀ rs, solve_with_combinations (fun _ _ _ => .ok wResEmpty) wModelTruss
        wLoadCases wCombos "steel" ≠ .ok rs :=
  solve_with_combinations_missing_case_fails_batch _ wModelTruss wLoadCases
    wCombos "steel" (fun _ _ _ => ⟨wResEmpty, rfl⟩)
    ⟨{ name := "D+L", factors := [("Dead", 12/10), ("Live", 16/10)] },
      List.mem_cons_self _ _,
      ("Live", 16/10), List.mem_cons_of_mem _ (List.mem_cons_self _ _),
      by decide⟩

end AutoStruct

namespace AutoStruct

/-- The running-maximum accumulation over one member-force list equals a
`max` fold over the projections of the matching records. -/
theorem foldl_env_filter (mfs : List MemberForce) (i : String)
    (f : MemberForce → ℚ) (acc : ℚ) :
    mfs.foldl (fun a mf => if mf.member_id = i then max a (f mf) else a) acc =
      ((mfs.filter (fun mf => mf.member_id = i)).map f).foldl max acc := by
  induction mfs generalizing acc with
  | nil => rfl
  | cons mf rest ih =>
    by_cases hid : mf.member_id = i
    · simp only [List.foldl_cons, List.filter_cons, hid, if_pos, decide_True,
        List.map_cons]
      exact ih _
    · simp only [List.foldl_cons, List.filter_cons, hid, if_neg,
        decide_False]
      exact ih _

/-- The per-member envelope accumulation is the `max` fold over all matching
values across the combination results. -/
theorem envMax_eq_fold (rs : List (String × AnalysisResults)) (i : String)
    (f : MemberForce → ℚ) :
    envMax rs i f = (memberValues rs i f).foldl max 0 := by
  suffices h : ∀ acc, rs.foldl
      (fun acc p => p.2.member_forces.foldl
        (fun a mf => if mf.member_id = i then max a (f mf) else a) acc)
      acc = (memberValues rs i f).foldl max acc from h 0
  induction rs with
  | nil => intro acc; rfl
  | cons p rest ih =>
    intro acc
    simp only [List.foldl_cons]
    rw [ih, foldl_env_filter]
    show _ = (memberValues (p :: rest) i f).foldl max acc
    have hmv : memberValues (p :: rest) i f =
        ((p.2.member_forces.filter (fun mf => mf.member_id = i)).map f) ++
          memberValues rest i f := rfl
    rw [hmv, List.foldl_append]

/-- Membership in the collected member values across combinations. -/
theorem mem_memberValues (rs : List (String × AnalysisResults)) (i : String)
    (f : MemberForce → ℚ) (v : ℚ) :
    v ∈ memberValues rs i f ↔
      ∃ p ∈ rs, ∃ mf ∈ p.2.member_forces, mf.member_id = i ∧ f mf = v := by
  induction rs with
  | nil => simp [memberValues]
  | cons p rest ih =>
    have hmv : memberValues (p :: rest) i f =
        ((p.2.member_forces.filter (fun mf => mf.member_id = i)).map f) ++
          memberValues rest i f := rfl
    rw [hmv, List.mem_append, ih]
    simp only [List.mem_map, List.mem_filter, decide_eq_true_eq,
      List.mem_cons]
    constructor
    · rintro (⟨mf, ⟨hmem, hid⟩, hv⟩ | ⟨q, hq, mf, hmem, hid, hv⟩)
      · exact ⟨p, Or.inl rfl, mf, hmem, hid, hv⟩
      · exact ⟨q, Or.inr hq, mf, hmem, hid, hv⟩
    · rintro ⟨q, hq | hq, mf, hmem, hid, hv⟩
      · exact Or.inl ⟨mf, ⟨hq ▸ hmem, hid⟩, hv⟩
      · exact Or.inr ⟨q, hq, mf, hmem, hid, hv⟩

/-- Field characterisation of a successful `get_envelope_results` on a
cons-shaped results list. -/
theorem envelope_ok_cons (c0 : String) (first : AnalysisResults)
    (rest : List (String × AnalysisResults)) (env : AnalysisResults)
    (h : get_envelope_results ((c0, first) :: rest) = .ok env) :
    env.member_forces = (first.member_forces.map MemberForce.member_id).map
      (envelopeMemberForce ((c0, first) :: rest)) ∧
    env.max_stress_ratio = listMaxFrom first.max_stress_ratio
      (rest.map (fun p => p.2.max_stress_ratio)) ∧
    env.safety_status = safetyStatusOf env.max_stress_ratio := by
  unfold get_envelope_results at h
  simp only [Except.ok.injEq] at h
  exact ⟨by rw [← h], by rw [← h], by rw [← h]⟩

/-- A `max` fold from 0 over a non-empty list of non-negative values is the
maximum of the list. -/
theorem isMaxOf_foldl (l : List ℚ) (hne : l ≠ []) (hnn : ∀ v ∈ l, 0 ≤ v) :
    isMaxOf (l.foldl max 0) l :=
  ⟨foldl_max_zero_mem l hne hnn, foldl_max_le_all l 0⟩

/-- C3: for every non-empty combination-results map whose stress ratios are
non-negative (as all solver outputs are) and every member id present in the
first result, the envelope member force for that member carries the true
per-member maxima: the maximum stress ratio and the maximum absolute axial,
shear, moment and stress across all combinations. -/
theorem envelope_member_force_is_worst_case (c0 : String)
    (first : AnalysisResults) (rest : List (String × AnalysisResults))
    (env : AnalysisResults) (i : String)
    (henv : get_envelope_results ((c0, first) :: rest) = .ok env)
    (hi : i ∈ first.member_forces.map MemberForce.member_id)
    (hnn : ∀ p ∈ (c0, first) :: rest, ∀ mf ∈ p.2.member_forces,
      0 ≤ mf.stress_ratio) :
    ∃ mf ∈ env.member_forces, mf.member_id = i ∧
      isMaxOf mf.stress_ratio
        (memberValues ((c0, first) :: rest) i MemberForce.stress_ratio) ∧
      isMaxOf mf.axial
        (memberValues ((c0, first) :: rest) i (fun x => |x.axial|)) ∧
      isMaxOf mf.shear
        (memberValues ((c0, first) :: rest) i (fun x => |x.shear|)) ∧
      isMaxOf mf.moment
        (memberValues ((c0, first) :: rest) i (fun x => |x.moment|)) ∧
      isMaxOf mf.stress
        (memberValues ((c0, first) :: rest) i (fun x => |x.stress|)) := by
  obtain ⟨hmf, -, -⟩ := envelope_ok_cons c0 first rest env henv
  obtain ⟨mf0, hmf0, hid0⟩ := List.mem_map.mp hi
  have hne : ∀ f : MemberForce → ℚ,
      memberValues ((c0, first) :: rest) i f ≠ [] := by
    intro f hnil
    have : f mf0 ∈ memberValues ((c0, first) :: rest) i f :=
      (mem_memberValues _ _ _ _).mpr
        ⟨(c0, first), List.mem_cons_self _ _, mf0, hmf0, hid0, rfl⟩
    rw [hnil] at this
    exact List.not_mem_nil _ this
  have habs : ∀ g : MemberForce → ℚ,
      ∀ v ∈ memberValues ((c0, first) :: rest) i (fun x => |g x|), 0 ≤ v := by
    intro g v hv
    obtain ⟨p, -, mf, -, -, hfv⟩ := (mem_memberValues _ _ _ _).mp hv
    rw [← hfv]
    exact abs_nonneg _
  refine ⟨envelopeMemberForce ((c0, first) :: rest) i, ?_, rfl, ?_, ?_, ?_, ?_, ?_⟩
  · rw [hmf]
    exact List.mem_map_of_mem _ hi
  · show isMaxOf (envMax ((c0, first) :: rest) i MemberForce.stress_ratio) _
    rw [envMax_eq_fold]
    refine isMaxOf_foldl _ (hne _) ?_
    intro v hv
    obtain ⟨p, hp, mf, hmem, -, hfv⟩ := (mem_memberValues _ _ _ _).mp hv
    rw [← hfv]
    exact hnn p hp mf hmem
  · show isMaxOf (envMax ((c0, first) :: rest) i (fun x => |x.axial|)) _
    rw [envMax_eq_fold]
    exact isMaxOf_foldl _ (hne _) (habs (fun x => x.axial))
  · show isMaxOf (envMax ((c0, first) :: rest) i (fun x => |x.shear|)) _
    rw [envMax_eq_fold]
    exact isMaxOf_foldl _ (hne _) (habs (fun x => x.shear))
  · show isMaxOf (envMax ((c0, first) :: rest) i (fun x => |x.moment|)) _
    rw [envMax_eq_fold]
    exact isMaxOf_foldl _ (hne _) (habs (fun x => x.moment))
  · show isMaxOf (envMax ((c0, first) :: rest) i (fun x => |x.stress|)) _
    rw [envMax_eq_fold]
    exact isMaxOf_foldl _ (hne _) (habs (fun x => x.stress))

end AutoStruct

namespace AutoStruct

/-- First concrete combination result for the C3 witness. -/
def wRes1 : AnalysisResults :=
  { member_forces := [{ member_id := "M1", axial := 10, shear := 1,
                        moment := 2, stress := 3, stress_ratio := 1/2 }],
    reactions := [], max_deflection := 0, safety_status := .PASS,
    max_stress_ratio := 1/2, nodes_with_displacements := [] }

/-- Second concrete combination result for the C3 witness. -/
def wRes2 : AnalysisResults :=
  { member_forces := [{ member_id := "M1", axial := -20, shear := 5,
                        moment := 1, stress := 7, stress_ratio := 3/4 }],
    reactions := [], max_deflection := 0, safety_status := .PASS,
    max_stress_ratio := 3/4, nodes_with_displacements := [] }

/-- Envelope of the two concrete combination results. -/
def wResEnv : AnalysisResults :=
  { member_forces := [{ member_id := "M1", axial := 20, shear := 5,
                        moment := 2, stress := 7, stress_ratio := 3/4 }],
    reactions := [], max_deflection := 0, safety_status := .PASS,
    max_stress_ratio := 3/4, nodes_with_displacements := [] }

/-- Evaluation of get_envelope_results on the two concrete combination
results. -/
theorem envelope_wRes_eval :
    get_envelope_results [("a", wRes1), ("b", wRes2)] = .ok wResEnv := by
  norm_num [get_envelope_results, wRes1, wRes2, wResEnv, envelopeMemberForce,
    envMax, listMaxFrom, worstCaseBy, safetyStatusOf]

/-- Witness for C3: the theorem applied to the two concrete combination
results and member id M1. -/
theorem envelope_member_force_is_worst_case_witness :
    ∃ mf ∈ wResEnv.member_forces, mf.member_id = "M1" ∧
      isMaxOf mf.stress_ratio
        (memberValues [("a", wRes1), ("b", wRes2)] "M1"
          MemberForce.stress_ratio) ∧
      isMaxOf mf.axial
        (memberValues [("a", wRes1), ("b", wRes2)] "M1" (fun x => |x.axial|)) ∧
      isMaxOf mf.shear
        (memberValues [("a", wRes1), ("b", wRes2)] "M1" (fun x => |x.shear|)) ∧
      isMaxOf mf.moment
        (memberValues [("a", wRes1), ("b", wRes2)] "M1" (fun x => |x.moment|)) ∧
      isMaxOf mf.stress
        (memberValues [("a", wRes1), ("b", wRes2)] "M1" (fun x => |x.stress|)) :=
  envelope_member_force_is_worst_case "a" wRes1 [("b", wRes2)] wResEnv "M1"
    envelope_wRes_eval (by simp [wRes1])
    (by
      intro p hp mf hmf
      simp only [List.mem_cons, List.not_mem_nil, or_false] at hp
      rcases hp with rfl | rfl <;>
        simp only [wRes1, wRes2, List.mem_cons, List.not_mem_nil, or_false] at hmf <;>
        rw [hmf] <;> norm_num)

end AutoStruct

namespace AutoStruct

/-- C7: for a positive radius of gyration and a positive design capacity
Pc = 0.90*Fcr*area (with Fe = pi^2 E/(KL/r)^2, K = 1, and Fcr the
inelastic/elastic AISC critical stress), check_aisc_compression_capacity
reports ratio 0 for non-compressive members and ratio abs(axial)/Pc for
compressive ones, failing exactly when the ratio exceeds 1. -/
theorem check_aisc_compression_spec (pi2 : ℚ) (powQ : ℚ → ℚ → ℚ)
    (area L r fy E axial : ℚ) (hr : 0 < r)
    (hPc : 0 < aiscPc pi2 powQ area L r fy E) :
    (check_aisc_compression_capacity pi2 powQ area L r fy E axial).ratio =
      (if 0 ≤ axial then 0 else |axial| / aiscPc pi2 powQ area L r fy E) ∧
    ((check_aisc_compression_capacity pi2 powQ area L r fy E axial).status =
      .FAIL ↔
      1 < (check_aisc_compression_capacity pi2 powQ area L r fy E axial).ratio) ∧
    ((check_aisc_compression_capacity pi2 powQ area L r fy E axial).status =
      .PASS ↔
      (check_aisc_compression_capacity pi2 powQ area L r fy E axial).ratio ≤ 1) ∧
    aiscFe pi2 E L r = pi2 * E / (1 * L / r) ^ 2 := by
  have hfe : aiscFe pi2 E L r = pi2 * E / (1 * L / r) ^ 2 := by
    unfold aiscFe
    rw [if_pos hr]
  by_cases ha : axial ≥ 0
  · unfold check_aisc_compression_capacity
    rw [if_pos ha]
    refine ⟨by rw [if_pos ha], ?_, ?_, hfe⟩
    · exact Iff.intro (fun hh => nomatch hh)
        (fun hh => absurd hh (by norm_num))
    · exact Iff.intro (fun _ => by norm_num) (fun _ => rfl)
  · unfold check_aisc_compression_capacity
    rw [if_neg ha]
    have hrw : (if aiscPc pi2 powQ area L r fy E > 0 then
        |axial| / aiscPc pi2 powQ area L r fy E else 999) =
        |axial| / aiscPc pi2 powQ area L r fy E := if_pos hPc
    push_neg at ha
    refine ⟨?_, ?_, ?_, hfe⟩
    · simp only [hrw]
      rw [if_neg (not_le.mpr ha)]
    · simp only [hrw]
      by_cases hle : |axial| / aiscPc pi2 powQ area L r fy E ≤ 1
      · rw [if_pos hle]
        exact Iff.intro (fun hh => nomatch hh)
          (fun hh => absurd hh (not_lt.mpr hle))
      · rw [if_neg hle]
        exact Iff.intro (fun _ => not_le.mp hle) (fun _ => rfl)
    · simp only [hrw]
      by_cases hle : |axial| / aiscPc pi2 powQ area L r fy E ≤ 1
      · rw [if_pos hle]
        exact Iff.intro (fun _ => hle) (fun _ => rfl)
      · rw [if_neg hle]
        exact Iff.intro (fun hh => nomatch hh) (fun hh => absurd hh hle)

/-- Witness for C7: the theorem applied to a concrete compressive member in
the elastic buckling range. -/
theorem check_aisc_compression_spec_witness :
    (check_aisc_compression_capacity 10 (fun _ _ => 1) 100 100 10 250 1000
      (-1)).ratio =
      (if (0:ℚ) ≤ -1 then 0
       else |(-1:ℚ)| / aiscPc 10 (fun _ _ => 1) 100 100 10 250 1000) ∧
    ((check_aisc_compression_capacity 10 (fun _ _ => 1) 100 100 10 250 1000
      (-1)).status = .FAIL ↔
      1 < (check_aisc_compression_capacity 10 (fun _ _ => 1) 100 100 10 250
        1000 (-1)).ratio) ∧
    ((check_aisc_compression_capacity 10 (fun _ _ => 1) 100 100 10 250 1000
      (-1)).status = .PASS ↔
      (check_aisc_compression_capacity 10 (fun _ _ => 1) 100 100 10 250 1000
        (-1)).ratio ≤ 1) ∧
    aiscFe 10 1000 100 10 = 10 * 1000 / (1 * 100 / 10) ^ 2 :=
  check_aisc_compression_spec 10 (fun _ _ => 1) 100 100 10 250 1000 (-1)
    (by norm_num)
    (by norm_num [aiscPc, aiscFcr, aiscFe])

end AutoStruct

namespace AutoStruct

/-- C4: at a concrete lightly-loaded slender compression member with a
moment (steel, L=5000, A=1000, S=10000, r=10, axial=-50000 N,
moment=1e6 N mm) and any value of pi^2 in (9,10), perform_code_checks
passes `compression_check.ratio * abs(axial)` - which is
abs(axial)^2 / Pc, not the design axial capacity Pc - to the
combined-loading check: the check comes back PASS (interaction about 0.5)
although the interaction ratio computed with the design axial capacity, as
the claim and spec require, exceeds 1 and should FAIL. -/
theorem perform_code_checks_pc_wiring_cex (pi2 : ℚ) (powQ : ℚ → ℚ → ℚ)
    (h9 : 9 < pi2) (h10 : pi2 < 10) :
    perform_code_checks pi2 powQ "M1" 5000 1000 10000 10 (-50000) 1000000
        "steel" .AISC =
      .ok { member_id := "M1",
            checks := [
              { code := .AISC, check_name := "Slenderness Ratio",
                status := .FAIL, ratio := 5/2,
                reference := "AISC 360-16 Section E2" },
              { code := .AISC, check_name := "Compression Capacity",
                status := .FAIL, ratio := 50000 / (15786 / 25 * pi2),
                reference := "AISC 360-16 Chapter E" },
              { code := .AISC, check_name := "Combined Loading",
                status := .PASS,
                ratio := 50000 / (2 * (50000 / (15786 / 25 * pi2) * 50000)) +
                  1000000 / (0.90 * (250 * 10000)),
                reference := "AISC 360-16 Chapter H" }],
            overall_status := .FAIL } ∧
    1 < specCombinedInteraction (aiscPc pi2 powQ 1000 5000 10 250 200000)
      (0.90 * (250 * 10000)) (-50000) 1000000 := by
  have hm : get_material "steel" =
      .ok ⟨"steel", 200000, 250, 7850, "Structural Steel (A36)"⟩ := rfl
  have hpi2pos : (0:ℚ) < pi2 := by linarith
  have hDpos : (0:ℚ) < 15786 / 25 * pi2 := by positivity
  have hD0 : (15786:ℚ) / 25 * pi2 ≠ 0 := ne_of_gt hDpos
  have hDlt : (15786:ℚ) / 25 * pi2 < 10000 := by nlinarith
  have hFe : aiscFe pi2 200000 5000 10 = 4 * pi2 / 5 := by
    unfold aiscFe
    rw [if_pos (by norm_num : (10:ℚ) > 0)]
    ring
  have hFcr : aiscFcr powQ (aiscFe pi2 200000 5000 10) 250 =
      877 / 1000 * (4 * pi2 / 5) := by
    unfold aiscFcr
    rw [hFe, show (0.44:ℚ) * 250 = 110 by norm_num]
    rw [if_neg (by intro hh; linarith)]
    rw [show (0.877:ℚ) = 877 / 1000 by norm_num]
  have hPcv : aiscPc pi2 powQ 1000 5000 10 250 200000 = 15786 / 25 * pi2 := by
    unfold aiscPc
    rw [hFcr, show (0.90:ℚ) = 9 / 10 by norm_num]
    ring
  have habs : |(-50000:ℚ)| = 50000 := by norm_num
  have habs2 : |(1000000:ℚ)| = 1000000 := by norm_num
  have hratpos : (50000:ℚ) / (15786 / 25 * pi2) > 0 :=
    div_pos (by norm_num) hDpos
  have hratgt : (1:ℚ) < 50000 / (15786 / 25 * pi2) :=
    (one_lt_div hDpos).mpr (by linarith)
  have hcomp : check_aisc_compression_capacity pi2 powQ 1000 5000 10 250
      200000 (-50000) =
      { code := .AISC, check_name := "Compression Capacity",
        status := .FAIL, ratio := 50000 / (15786 / 25 * pi2),
        reference := "AISC 360-16 Chapter E" } := by
    unfold check_aisc_compression_capacity
    rw [if_neg (by norm_num : ¬ (-50000:ℚ) ≥ 0)]
    dsimp only
    rw [hPcv, habs, if_pos hDpos, if_neg (not_le.mpr hratgt)]
  have hslen : check_aisc_slenderness 5000 10 250 200000 (-50000) =
      { code := .AISC, check_name := "Slenderness Ratio", status := .FAIL,
        ratio := 5/2, reference := "AISC 360-16 Section E2" } := by
    unfold check_aisc_slenderness
    norm_num
  have hPcP : (0:ℚ) < 50000 / (15786 / 25 * pi2) * 50000 := by positivity
  have haxr : (50000:ℚ) / (50000 / (15786 / 25 * pi2) * 50000) =
      15786 / 25 * pi2 / 50000 := by
    field_simp
    ring
  have hax02 : ¬ ((15786:ℚ) / 25 * pi2 / 50000 ≥ 0.2) := by
    intro hh
    rw [ge_iff_le, le_div_iff (by norm_num : (0:ℚ) < 50000)] at hh
    rw [show (0.2:ℚ) * 50000 = 10000 by norm_num] at hh
    linarith
  have he1 : (50000:ℚ) / (2 * (50000 / (15786 / 25 * pi2) * 50000)) =
      15786 / 25 * pi2 / 100000 := by
    field_simp
    ring
  have hle1 : (50000:ℚ) / (2 * (50000 / (15786 / 25 * pi2) * 50000)) +
      1000000 / (0.90 * (250 * 10000)) ≤ 1 := by
    rw [he1, show (0.90:ℚ) * (250 * 10000) = 2250000 by norm_num,
      show (1000000:ℚ) / 2250000 = 4 / 9 by norm_num]
    linarith
  have hcombined : check_aisc_combined_loading 1000 10000 (-50000) 1000000
      250 (50000 / (15786 / 25 * pi2) * 50000) (0.90 * (250 * 10000)) =
      { code := .AISC, check_name := "Combined Loading", status := .PASS,
        ratio := 50000 / (2 * (50000 / (15786 / 25 * pi2) * 50000)) +
          1000000 / (0.90 * (250 * 10000)),
        reference := "AISC 360-16 Chapter H" } := by
    unfold check_aisc_combined_loading
    dsimp only
    rw [habs, habs2]
    rw [if_neg (by
      push_neg
      refine ⟨hPcP, by norm_num⟩)]
    rw [haxr]
    rw [if_neg hax02, if_pos hle1]
  constructor
  · unfold perform_code_checks
    rw [hm]
    dsimp only
    rw [if_pos (by norm_num : (-50000:ℚ) < 0),
      if_pos (by norm_num : (-50000:ℚ) < 0),
      if_neg (by norm_num : ¬ (-50000:ℚ) > 0)]
    rw [hslen, hcomp]
    dsimp only
    rw [if_pos hratpos, habs, habs2]
    rw [if_pos (by norm_num : (1000000:ℚ) > 1)]
    rw [hcombined]
    rfl
  · unfold specCombinedInteraction
    rw [hPcv, habs, habs2]
    dsimp only
    rw [if_pos (by rw [ge_iff_le]; linarith)]
    rw [show (0.90:ℚ) * (250 * 10000) = 2250000 by norm_num,
      show (1000000:ℚ) / 2250000 = 4 / 9 by norm_num]
    have : (0:ℚ) < 8 / 9 * (4 / 9) := by norm_num
    linarith

end AutoStruct

namespace AutoStruct

/-- Witness for the C4 counterexample theorem at pi2 = 19/2. -/
theorem perform_code_checks_pc_wiring_cex_witness :
    perform_code_checks (19/2) (fun _ _ => 1) "M1" 5000 1000 10000 10
        (-50000) 1000000 "steel" .AISC =
      .ok { member_id := "M1",
            checks := [
              { code := .AISC, check_name := "Slenderness Ratio",
                status := .FAIL, ratio := 5/2,
                reference := "AISC 360-16 Section E2" },
              { code := .AISC, check_name := "Compression Capacity",
                status := .FAIL, ratio := 50000 / (15786 / 25 * (19/2)),
                reference := "AISC 360-16 Chapter E" },
              { code := .AISC, check_name := "Combined Loading",
                status := .PASS,
                ratio := 50000 / (2 * (50000 / (15786 / 25 * (19/2)) * 50000)) +
                  1000000 / (0.90 * (250 * 10000)),
                reference := "AISC 360-16 Chapter H" }],
            overall_status := .FAIL } ∧
    1 < specCombinedInteraction (aiscPc (19/2) (fun _ _ => 1) 1000 5000 10
      250 200000) (0.90 * (250 * 10000)) (-50000) 1000000 :=
  perform_code_checks_pc_wiring_cex (19/2) (fun _ _ => 1)
    (by norm_num) (by norm_num)

end AutoStruct

namespace AutoStruct

/-- C10: under the frozen schemas.py declarations, the keyword arguments
`nodes_with_displacements` (on AnalysisResults) and
`displacement_x`/`displacement_y` (on Node) name no declared field, so
pydantic silently drops them: the object solve returns carries no nodal
displacement data - constructing it with any two different displacement
lists (or displacement components) yields identical objects. -/
theorem schemas_drop_displacement_outputs :
    (∀ (mf : List MemberForce) (r : List Reaction) (d : ℚ)
        (st : SafetyStatus) (ms : ℚ) (l1 l2 : List NodeSchema),
      AnalysisResultsSchema.pydanticMk mf r d st ms l1 =
        AnalysisResultsSchema.pydanticMk mf r d st ms l2) ∧
    (∀ (id : String) (x y dx1 dy1 dx2 dy2 : ℚ),
      NodeSchema.pydanticMk id x y dx1 dy1 =
        NodeSchema.pydanticMk id x y dx2 dy2) ∧
    AnalysisResultsSchema.pydanticMk [] [] 0 .PASS 0
        [NodeSchema.pydanticMk "N1" 0 0 5 7] =
      AnalysisResultsSchema.pydanticMk [] [] 0 .PASS 0 [] :=
  ⟨fun _ _ _ _ _ _ _ => rfl, fun _ _ _ _ _ _ _ => rfl, rfl⟩

end AutoStruct

namespace AutoStruct.SpecSolver

/-- Sums of pointwise sums split. -/
theorem list_sum_map_add {α : Type} (l : List α) (f g : α → ℚ) :
    (l.map (fun x => f x + g x)).sum = (l.map f).sum + (l.map g).sum := by
  induction l with
  | nil => simp
  | cons x xs ih =>
    simp only [List.map_cons, List.sum_cons, ih]
    ring

/-- Sums of pointwise differences split. -/
theorem list_sum_map_sub {α : Type} (l : List α) (f g : α → ℚ) :
    (l.map (fun x => f x - g x)).sum = (l.map f).sum - (l.map g).sum := by
  induction l with
  | nil => simp
  | cons x xs ih =>
    simp only [List.map_cons, List.sum_cons, ih]
    ring

/-- Summing an indicator of `n = a` over a duplicate-free list picks the
value at `a` exactly once. -/
theorem sum_ite_eq_list (ids : List String) (hnd : ids.Nodup) (a : String)
    (v : ℚ) :
    (ids.map (fun n => if n = a then v else 0)).sum =
      if a ∈ ids then v else 0 := by
  induction ids with
  | nil => simp
  | cons x xs ih =>
    rw [List.nodup_cons] at hnd
    simp only [List.map_cons, List.sum_cons, List.mem_cons]
    by_cases hx : x = a
    · rw [if_pos hx, if_pos (Or.inl hx.symm)]
      have : a ∉ xs := fun hmem => hnd.1 (hx ▸ hmem)
      rw [ih hnd.2, if_neg this]
      ring
    · rw [if_neg hx, ih hnd.2]
      by_cases hmem : a ∈ xs
      · rw [if_pos hmem, if_pos (Or.inr hmem)]
        ring
      · rw [if_neg hmem, if_neg (by rintro (h | h); exact hx h.symm; exact hmem h)]
        ring

/-- Summing an indicator of `a = n` over a duplicate-free list picks the
value at `a` exactly once. -/
theorem sum_ite_eq_list' (ids : List String) (hnd : ids.Nodup) (a : String)
    (v : ℚ) :
    (ids.map (fun n => if a = n then v else 0)).sum =
      if a ∈ ids then v else 0 := by
  rw [show (fun n => if a = n then v else 0) =
    (fun n => if n = a then v else 0) from funext fun n => by
      by_cases h : n = a
      · rw [if_pos h, if_pos h.symm]
      · rw [if_neg h, if_neg (fun hh => h hh.symm)]]
  exact sum_ite_eq_list ids hnd a v

end AutoStruct.SpecSolver

namespace AutoStruct.SpecSolver

/-- A member contributes equal and opposite x forces at its two distinct
end nodes, so its contributions over a duplicate-free node list cancel. -/
theorem contribX_sum_zero (kind : StructureKind) (sqrtQ : ℚ → ℚ) (EA EI : ℚ)
    (nodes : List AutoStruct.Node) (m : AutoStruct.Member) (u : Disp)
    (ids : List String) (hnd : ids.Nodup)
    (hs : m.start_node ∈ ids) (he : m.end_node ∈ ids)
    (hne : m.start_node ≠ m.end_node) :
    (ids.map (fun n => contribX kind sqrtQ EA EI nodes m u n)).sum = 0 := by
  have hsplit : ∀ n, contribX kind sqrtQ EA EI nodes m u n =
      (if n = m.start_node then memberFx kind sqrtQ EA EI nodes m u else 0) +
      (if n = m.end_node then -(memberFx kind sqrtQ EA EI nodes m u) else 0) := by
    intro n
    unfold contribX
    split_ifs with h1 h2 <;>
      first
        | exact absurd (h1.symm.trans h2) hne
        | ring
  rw [List.map_congr_left (fun n _ => hsplit n), list_sum_map_add,
    sum_ite_eq_list ids hnd _ _, sum_ite_eq_list ids hnd _ _,
    if_pos hs, if_pos he]
  ring

/-- Same cancellation for the y components. -/
theorem contribY_sum_zero (kind : StructureKind) (sqrtQ : ℚ → ℚ) (EA EI : ℚ)
    (nodes : List AutoStruct.Node) (m : AutoStruct.Member) (u : Disp)
    (ids : List String) (hnd : ids.Nodup)
    (hs : m.start_node ∈ ids) (he : m.end_node ∈ ids)
    (hne : m.start_node ≠ m.end_node) :
    (ids.map (fun n => contribY kind sqrtQ EA EI nodes m u n)).sum = 0 := by
  have hsplit : ∀ n, contribY kind sqrtQ EA EI nodes m u n =
      (if n = m.start_node then memberFy kind sqrtQ EA EI nodes m u else 0) +
      (if n = m.end_node then -(memberFy kind sqrtQ EA EI nodes m u) else 0) := by
    intro n
    unfold contribY
    split_ifs with h1 h2 <;>
      first
        | exact absurd (h1.symm.trans h2) hne
        | ring
  rw [List.map_congr_left (fun n _ => hsplit n), list_sum_map_add,
    sum_ite_eq_list ids hnd _ _, sum_ite_eq_list ids hnd _ _,
    if_pos hs, if_pos he]
  ring

/-- Summing per-node member accumulations equals accumulating per-member
node sums; if each member sums to zero the total vanishes. -/
theorem sum_swap_members (ids : List String)
    (ms : List AutoStruct.Member) (F : AutoStruct.Member → String → ℚ)
    (h : ∀ m ∈ ms, (ids.map (F m)).sum = 0) :
    (ids.map (fun n => (ms.map (fun m => F m n)).sum)).sum = 0 := by
  induction ms with
  | nil => simp
  | cons m rest ih =>
    have hsplit : ∀ n, ((m :: rest).map (fun mm => F mm n)).sum =
        F m n + (rest.map (fun mm => F mm n)).sum := by
      intro n
      rw [List.map_cons, List.sum_cons]
    rw [List.map_congr_left (fun n _ => hsplit n), list_sum_map_add,
      h m (List.mem_cons_self _ _),
      ih (fun mm hmm => h mm (List.mem_cons_of_mem _ hmm))]
    ring

/-- The assembled internal x forces over all nodes sum to zero. -/
theorem intForceX_total_zero (kind : StructureKind) (sqrtQ : ℚ → ℚ)
    (EA EI : ℚ) (model : AutoStruct.StructuralModel) (u : Disp)
    (hnd : (model.nodes.map AutoStruct.Node.id).Nodup)
    (hmem : ∀ m ∈ model.members,
      m.start_node ∈ model.nodes.map AutoStruct.Node.id ∧
      m.end_node ∈ model.nodes.map AutoStruct.Node.id ∧
      m.start_node ≠ m.end_node) :
    ((model.nodes.map AutoStruct.Node.id).map
      (fun n => intForceX kind sqrtQ EA EI model u n)).sum = 0 := by
  apply sum_swap_members
  intro m hm
  exact contribX_sum_zero kind sqrtQ EA EI model.nodes m u _ hnd
    (hmem m hm).1 (hmem m hm).2.1 (hmem m hm).2.2

/-- The assembled internal y forces over all nodes sum to zero. -/
theorem intForceY_total_zero (kind : StructureKind) (sqrtQ : ℚ → ℚ)
    (EA EI : ℚ) (model : AutoStruct.StructuralModel) (u : Disp)
    (hnd : (model.nodes.map AutoStruct.Node.id).Nodup)
    (hmem : ∀ m ∈ model.members,
      m.start_node ∈ model.nodes.map AutoStruct.Node.id ∧
      m.end_node ∈ model.nodes.map AutoStruct.Node.id ∧
      m.start_node ≠ m.end_node) :
    ((model.nodes.map AutoStruct.Node.id).map
      (fun n => intForceY kind sqrtQ EA EI model u n)).sum = 0 := by
  apply sum_swap_members
  intro m hm
  exact contribY_sum_zero kind sqrtQ EA EI model.nodes m u _ hnd
    (hmem m hm).1 (hmem m hm).2.1 (hmem m hm).2.2

/-- Node-wise accumulated loads over a duplicate-free node list covering
all load application points sum to the total applied load. -/
theorem sum_applied (ids : List String) (hnd : ids.Nodup)
    (loads : List AutoStruct.Load) (c : AutoStruct.Load → ℚ)
    (hl : ∀ l ∈ loads, l.node_id ∈ ids) :
    (ids.map (fun n =>
      ((loads.filter (fun l => l.node_id = n)).map c).sum)).sum =
      (loads.map c).sum := by
  induction loads with
  | nil => simp
  | cons l ls ih =>
    have hsplit : ∀ n,
        (((l :: ls).filter (fun l2 => l2.node_id = n)).map c).sum =
        (if l.node_id = n then c l else 0) +
          ((ls.filter (fun l2 => l2.node_id = n)).map c).sum := by
      intro n
      by_cases h : l.node_id = n
      · rw [List.filter_cons_of_pos (by simpa using h), List.map_cons,
          List.sum_cons, if_pos h]
      · rw [List.filter_cons_of_neg (by simpa using h), if_neg h, zero_add]
    rw [List.map_congr_left (fun n _ => hsplit n), list_sum_map_add,
      sum_ite_eq_list' ids hnd _ _, if_pos (hl l (List.mem_cons_self _ _)),
      ih (fun l2 hl2 => hl l2 (List.mem_cons_of_mem _ hl2)),
      List.map_cons, List.sum_cons]

end AutoStruct.SpecSolver

namespace AutoStruct.SpecSolver

/-- A sum over a duplicate-free sublist extends to the full duplicate-free
list when the summand vanishes off the sublist. -/
theorem sum_restrict (S ids : List String) (g : String → ℚ)
    (hndI : ids.Nodup) (hndS : S.Nodup) (hsub : ∀ x ∈ S, x ∈ ids)
    (hz : ∀ n ∈ ids, n ∉ S → g n = 0) :
    (S.map g).sum = (ids.map g).sum := by
  rw [← List.sum_toFinset _ hndS, ← List.sum_toFinset _ hndI]
  apply Finset.sum_subset
  · intro x hx
    rw [List.mem_toFinset] at hx
    rw [List.mem_toFinset]
    exact hsub x hx
  · intro x hx hnx
    rw [List.mem_toFinset] at hx
    exact hz x hx (fun hmem => hnx (List.mem_toFinset.mpr hmem))

/-- C2 (spec-modelled): for every solved state of the direct stiffness
model of spec section 4.1 - a displacement assignment satisfying the
stiffness equations at all unrestrained translational degrees of freedom -
over a well-formed model (duplicate-free node ids, at most one support per
node, members joining two distinct existing nodes, loads applied at
existing nodes), the residual support reactions balance the applied loads
exactly: the vertical reactions sum to the negation of the applied fy sum,
and the horizontal reactions sum to the negation of the applied fx sum. -/
theorem spec_reactions_balance_applied_loads (kind : StructureKind)
    (sqrtQ : ℚ → ℚ) (EA EI : ℚ) (model : AutoStruct.StructuralModel)
    (loads : List AutoStruct.Load) (u : Disp)
    (hnd : (model.nodes.map AutoStruct.Node.id).Nodup)
    (hsnd : (model.supports.map AutoStruct.Support.node_id).Nodup)
    (hsup : ∀ s ∈ model.supports,
      s.node_id ∈ model.nodes.map AutoStruct.Node.id)
    (hmem : ∀ m ∈ model.members,
      m.start_node ∈ model.nodes.map AutoStruct.Node.id ∧
      m.end_node ∈ model.nodes.map AutoStruct.Node.id ∧
      m.start_node ≠ m.end_node)
    (hl : ∀ l ∈ loads, l.node_id ∈ model.nodes.map AutoStruct.Node.id)
    (hfe : FreeEquilibrium kind sqrtQ EA EI model loads u) :
    ((specReactions kind sqrtQ EA EI model loads u).map
      AutoStruct.Reaction.ry).sum = -((loads.map AutoStruct.Load.fy).sum) ∧
    ((specReactions kind sqrtQ EA EI model loads u).map
      AutoStruct.Reaction.rx).sum = -((loads.map AutoStruct.Load.fx).sum) := by
  have hinj : ∀ t ∈ model.supports, ∀ s ∈ model.supports,
      t.node_id = s.node_id → t = s := by
    intro t ht s hs heq
    exact List.inj_on_of_nodup_map hsnd ht hs heq
  constructor
  · have h1 : ((specReactions kind sqrtQ EA EI model loads u).map
        AutoStruct.Reaction.ry).sum =
        ((model.supports.map AutoStruct.Support.node_id).map
          (fun n => intForceY kind sqrtQ EA EI model u n -
            appliedY loads n)).sum := by
      unfold specReactions
      rw [List.map_map, List.map_map]
      rfl
    rw [h1, sum_restrict _ _ _ hnd hsnd
      (by
        intro x hx
        obtain ⟨s, hs, rfl⟩ := List.mem_map.mp hx
        exact hsup s hs)
      (by
        intro n hn hnS
        have hry : restrainedY model.supports n = false := by
          simp only [restrainedY, List.any_eq_false, decide_eq_true_eq]
          intro s hs hss
          exact hnS (List.mem_map.mpr ⟨s, hs, hss⟩)
        rw [((hfe n hn).2 hry), sub_self]),
      list_sum_map_sub,
      intForceY_total_zero kind sqrtQ EA EI model u hnd hmem]
    have hay : ((model.nodes.map AutoStruct.Node.id).map
        (appliedY loads)).sum = (loads.map AutoStruct.Load.fy).sum :=
      sum_applied _ hnd loads AutoStruct.Load.fy hl
    rw [hay]
    ring
  · have hrx : ∀ s ∈ model.supports,
        (specReaction kind sqrtQ EA EI model loads u s).rx =
          intForceX kind sqrtQ EA EI model u s.node_id -
            appliedX loads s.node_id := by
      intro s hs
      unfold specReaction
      by_cases hres : restrainsX s = true
      · rw [if_pos hres]
      · rw [if_neg hres]
        have hrf : restrainedX model.supports s.node_id = false := by
          simp only [restrainedX, List.any_eq_false, Bool.and_eq_true,
            decide_eq_true_eq, not_and]
          intro t ht hteq
          rw [hinj t ht s hs hteq]
          exact fun hh => hres hh
        rw [(hfe s.node_id (hsup s hs)).1 hrf, sub_self]
    have h1 : ((specReactions kind sqrtQ EA EI model loads u).map
        AutoStruct.Reaction.rx).sum =
        ((model.supports.map AutoStruct.Support.node_id).map
          (fun n => intForceX kind sqrtQ EA EI model u n -
            appliedX loads n)).sum := by
      unfold specReactions
      rw [List.map_map, List.map_map]
      exact congrArg List.sum (List.map_congr_left (fun s hs => hrx s hs))
    rw [h1, sum_restrict _ _ _ hnd hsnd
      (by
        intro x hx
        obtain ⟨s, hs, rfl⟩ := List.mem_map.mp hx
        exact hsup s hs)
      (by
        intro n hn hnS
        have hrf : restrainedX model.supports n = false := by
          simp only [restrainedX, List.any_eq_false, Bool.and_eq_true,
            decide_eq_true_eq, not_and]
          intro s hs hss
          exact absurd (List.mem_map.mpr ⟨s, hs, hss⟩) hnS
        rw [((hfe n hn).1 hrf), sub_self]),
      list_sum_map_sub,
      intForceX_total_zero kind sqrtQ EA EI model u hnd hmem]
    have hax : ((model.nodes.map AutoStruct.Node.id).map
        (appliedX loads)).sum = (loads.map AutoStruct.Load.fx).sum :=
      sum_applied _ hnd loads AutoStruct.Load.fx hl
    rw [hax]
    ring

end AutoStruct.SpecSolver

namespace AutoStruct.SpecSolver

/-- The zero displacement state for the C2 witness. -/
def wSpecU : Disp := fun _ => (0, 0, 0)

/-- A single vertical load at the pinned node for the C2 witness. -/
def wSpecLoads : List AutoStruct.Load := [{ node_id := "N1", fy := -1000 }]

/-- Witness for C2: the theorem applied to the concrete one-member truss
with a -1000 N vertical load at the pinned node and the zero displacement
state (which satisfies the free equations, all member forces vanishing). -/
theorem spec_reactions_balance_applied_loads_witness :
    ((specReactions .truss AutoStruct.wSqrt 1 1 AutoStruct.wModelTruss
      wSpecLoads wSpecU).map AutoStruct.Reaction.ry).sum =
      -((wSpecLoads.map AutoStruct.Load.fy).sum) ∧
    ((specReactions .truss AutoStruct.wSqrt 1 1 AutoStruct.wModelTruss
      wSpecLoads wSpecU).map AutoStruct.Reaction.rx).sum =
      -((wSpecLoads.map AutoStruct.Load.fx).sum) :=
  spec_reactions_balance_applied_loads .truss AutoStruct.wSqrt 1 1
    AutoStruct.wModelTruss wSpecLoads wSpecU
    (by decide) (by decide) (by decide) (by decide) (by decide)
    (by
      intro n hn
      have hc1 : coordOf AutoStruct.wModelTruss.nodes "N1" = (0, 0) := rfl
      have hc2 : coordOf AutoStruct.wModelTruss.nodes "N2" = (1000, 0) := rfl
      have hne1 : ¬ ("N2" = "N1") := by decide
      have hne3 : ¬ ("N1" = "N2") := by decide
      simp only [AutoStruct.wModelTruss, List.map_cons, List.map_nil,
        List.mem_cons, List.not_mem_nil, or_false] at hn
      rcases hn with rfl | rfl
      · exact ⟨fun hres => absurd hres (by decide),
          fun hres => absurd hres (by decide)⟩
      · refine ⟨fun _ => ?_, fun hres => absurd hres (by decide)⟩
        norm_num [intForceX, contribX, memberFx, axialN, shearV, appliedX,
          memberLength, hc1, hc2, hne1, hne3, wSpecU, wSpecLoads,
          AutoStruct.wModelTruss, AutoStruct.wSqrt])

end AutoStruct.SpecSolver
